import Mathlib

/-!
# Desktop perception tools: icon lookup, icon path resolution, screen diff

A shallow embedding of `AI/desktop_agent/tools/imagecapturing.go` and
`AI/desktop_agent/tools/desktopinfo.go`, with the properties of the design
document stated and proved over it.

Conventions of the embedding:

* A value of Go's `int` (64 bits) is an `Int`, and every sum, difference and product
  the code computes in `int` is wrapped to 64 bits (`wrap64`); a value computed in
  `int32` is wrapped to 32 bits (`wrapInt32`).
* A call that returns no value is `none`: a run-time panic (slice index out of range), or
  a loop that never ends.
* A loop `for v := lo; v < hi; v += 4` is `forLoop`: the variable moves in steps of 4
  modulo 2^64, so it has at most 2^62 values, and a loop still running after 2^62 + 1
  tests of its condition never ends (`forLoop_fuel_enough`). When no increment wraps, the
  loop is a fold over `everyFourth lo hi`, the list of the values of `v`
  (`forLoop_eq_foldlM`).
* The operating system is a parameter: `Host` holds the answers of `os.UserHomeDir`,
  `filepath.Join`, `os.Stat` and `filepath.Glob` for one state of the filesystem.
* The accessibility tree is data: an `Element` holds what the provider reported. The
  order in which the library's `SearchElem` walks a tree is a parameter, `visit`.
* Strings are compared as Go compares them: equal when they hold the same text.
-/

namespace Wisor

/-! ## The parts of Go's `image` package used by `GetDiffBounds` -/

/-- Go `image.Point`. -/
structure Point where
  X : Int
  Y : Int
deriving DecidableEq, Repr

/-- Go `image.Rectangle`: the points with `Min.X <= x < Max.X`, `Min.Y <= y < Max.Y`. -/
structure Rectangle where
  Min : Point
  Max : Point
deriving DecidableEq, Repr

/-- Go `image.ZR`, the zero rectangle. -/
def ZR : Rectangle := ⟨⟨0, 0⟩, ⟨0, 0⟩⟩

/-- Go `image.Rect(x0, y0, x1, y1)`: swaps the coordinates of an axis given in the wrong order. -/
def Rect (x0 y0 x1 y1 : Int) : Rectangle :=
  let xa := if x0 > x1 then x1 else x0
  let xb := if x0 > x1 then x0 else x1
  let ya := if y0 > y1 then y1 else y0
  let yb := if y0 > y1 then y0 else y1
  ⟨⟨xa, ya⟩, ⟨xb, yb⟩⟩

namespace Rectangle

/-- The width `Max.X - Min.X`: Go `Rectangle.Dx` for a rectangle whose width is an `int`. -/
def Dx (r : Rectangle) : Int := r.Max.X - r.Min.X

/-- The height `Max.Y - Min.Y`: Go `Rectangle.Dy` for a rectangle whose height is an `int`. -/
def Dy (r : Rectangle) : Int := r.Max.Y - r.Min.Y

/-- Go `Rectangle.Empty`. -/
def Empty (r : Rectangle) : Bool :=
  decide (r.Min.X ≥ r.Max.X) || decide (r.Min.Y ≥ r.Max.Y)

/-- Go `Rectangle.Canon`. -/
def Canon (r : Rectangle) : Rectangle :=
  let r1 : Rectangle :=
    if r.Max.X < r.Min.X then ⟨⟨r.Max.X, r.Min.Y⟩, ⟨r.Min.X, r.Max.Y⟩⟩ else r
  if r1.Max.Y < r1.Min.Y then ⟨⟨r1.Min.X, r1.Max.Y⟩, ⟨r1.Max.X, r1.Min.Y⟩⟩ else r1

/-- Go `Rectangle.Intersect`: the largest rectangle contained in both, `ZR` when that is empty. -/
def Intersect (r s : Rectangle) : Rectangle :=
  let minX := if r.Min.X < s.Min.X then s.Min.X else r.Min.X
  let minY := if r.Min.Y < s.Min.Y then s.Min.Y else r.Min.Y
  let maxX := if r.Max.X > s.Max.X then s.Max.X else r.Max.X
  let maxY := if r.Max.Y > s.Max.Y then s.Max.Y else r.Max.Y
  let r1 : Rectangle := ⟨⟨minX, minY⟩, ⟨maxX, maxY⟩⟩
  if r1.Empty then ZR else r1

/-- The point `(x, y)` lies in the rectangle (Go `Point.In`). -/
def Contains (r : Rectangle) (x y : Int) : Prop :=
  r.Min.X ≤ x ∧ x < r.Max.X ∧ r.Min.Y ≤ y ∧ y < r.Max.Y

instance (r : Rectangle) (x y : Int) : Decidable (r.Contains x y) := by
  unfold Contains; infer_instance

/-- Containment `r ⊆ s` on coordinates: `Min` of `r` not below and `Max` not above those of `s`. -/
def Within (r s : Rectangle) : Prop :=
  s.Min.X ≤ r.Min.X ∧ s.Min.Y ≤ r.Min.Y ∧ r.Max.X ≤ s.Max.X ∧ r.Max.Y ≤ s.Max.Y

instance (r s : Rectangle) : Decidable (r.Within s) := by
  unfold Within; infer_instance

end Rectangle

/-- The value a Go `int` (64 bits, two's complement) holds after an operation whose exact
result is `z`. -/
def wrap64 (z : Int) : Int :=
  (z + 9223372036854775808) % 18446744073709551616 - 9223372036854775808

/-- One byte of a pixel array (`uint8`). -/
abbrev Byte := Fin 256

/-- Go `image.RGBA`: `Pix` holds the pixels as R, G, B, A bytes, rows `Stride` bytes
apart; `Rect` is the image's bounds. -/
structure RGBA where
  Pix : List Byte
  Stride : Int
  Rect : Rectangle
deriving DecidableEq, Repr

namespace RGBA

/-- Go `(*RGBA).Bounds`. -/
def Bounds (p : RGBA) : Rectangle := p.Rect

/-- Go `(*RGBA).PixOffset`, `(y-Min.Y)*Stride + (x-Min.X)*4` computed in `int`: wrapping
the exact value once gives what wrapping after each operation gives. -/
def PixOffset (p : RGBA) (x y : Int) : Int :=
  wrap64 ((y - p.Rect.Min.Y) * p.Stride + (x - p.Rect.Min.X) * 4)

/-- The slice read `p.Pix[i]` for a Go `int` index: `none` is the index-out-of-range panic. -/
def pixAt (p : RGBA) (i : Int) : Option Byte :=
  if 0 ≤ i then p.Pix[i.toNat]? else none

/-- A buffer whose pixel array holds every pixel of its bounds: rows do not overlap
and the last pixel of the last row is inside `Pix`; an empty bounds asks nothing of
the layout. As for every Go slice, the length of `Pix` is an `int`: below 2^63. -/
def WellFormed (p : RGBA) : Prop :=
  p.Pix.length < 9223372036854775808 ∧
    (p.Rect.Empty = true ∨
      (4 * p.Rect.Dx ≤ p.Stride ∧ (p.Rect.Dy - 1) * p.Stride + 4 * p.Rect.Dx ≤ p.Pix.length))

instance (p : RGBA) : Decidable p.WellFormed := by
  unfold WellFormed; infer_instance

end RGBA

/-! ## `GetDiffBounds` (imagecapturing.go) -/

/-- The number of tests of its condition after which a loop `for v := lo; v < hi; v += 4`
that is still running never ends: 2^62 + 1. A loop that ends with any number of tests
ends with this number (`forLoop_fuel_enough`). -/
def loopFuel : Nat := 4611686018427387905

/-- The loop `for v := lo; v < hi; v += 4 { body }` started at `v` in state `s`, with `n`
tests of the condition left: `body` may panic (`none`), the increment wraps to 64 bits. -/
def forLoop {σ : Type} (hi : Int) (body : σ → Int → Option σ) : Nat → Int → σ → Option σ
  | 0, _, _ => none
  | n + 1, v, s =>
    if v < hi then
      match body s v with
      | none => none
      | some s' => forLoop hi body n (wrap64 (v + 4)) s'
    else some s

/-- The comparison `after.Pix[i] != before.Pix[i]`; `after` is read first. -/
def byteDiffers (before after : RGBA) (i : Int) : Option Bool :=
  match after.pixAt i with
  | none => none
  | some a =>
    match before.pixAt i with
    | none => none
    | some b => some (decide (a ≠ b))

/-- Go's short-circuit `||` over operands that may panic: the right operand is only
evaluated when the left one is false. -/
def orElse (l : Option Bool) (r : Option Bool) : Option Bool :=
  match l with
  | none => none
  | some true => some true
  | some false => r

/-- The condition of the `if` at offset `off`: R, G or B differs (alpha, `off+3`, is not read). -/
def rgbDiffers (before after : RGBA) (off : Int) : Option Bool :=
  orElse (byteDiffers before after off)
    (orElse (byteDiffers before after (wrap64 (off + 1)))
      (byteDiffers before after (wrap64 (off + 2))))

/-- The local variables `minX, minY, maxX, maxY, changed` of `GetDiffBounds`. -/
structure Scan where
  minX : Int
  minY : Int
  maxX : Int
  maxY : Int
  changed : Bool
deriving DecidableEq, Repr

/-- The body of the `if` for a differing sample at `(x, y)`. -/
def Scan.mark (s : Scan) (x y : Int) : Scan :=
  { minX := if x < s.minX then x else s.minX
    maxX := if x > s.maxX then x else s.maxX
    minY := if y < s.minY then y else s.minY
    maxY := if y > s.maxY then y else s.maxY
    changed := true }

/-- One iteration of the inner loop, at `(x, y)`. -/
def scanPixel (before after : RGBA) (y : Int) (s : Scan) (x : Int) : Option Scan :=
  match rgbDiffers before after (after.PixOffset x y) with
  | none => none
  | some true => some (s.mark x y)
  | some false => some s

/-- The inner loop `for x := Min.X; x < Max.X; x += 4` on row `y`. -/
def scanRow (before after : RGBA) (s : Scan) (y : Int) : Option Scan :=
  forLoop after.Bounds.Max.X (scanPixel before after y) loopFuel after.Bounds.Min.X s

/-- The initial values of the locals: `minX, minY := Max.X, Max.Y`, `maxX, maxY := 0, 0`,
`changed := false`. -/
def scanInit (after : RGBA) : Scan :=
  { minX := after.Bounds.Max.X, minY := after.Bounds.Max.Y, maxX := 0, maxY := 0,
    changed := false }

/-- Both loops of `GetDiffBounds`, the outer one `for y := Min.Y; y < Max.Y; y += 4`,
from the initial values of the locals. -/
def scanAll (before after : RGBA) : Option Scan :=
  forLoop after.Bounds.Max.Y (scanRow before after) loopFuel after.Bounds.Min.Y
    (scanInit after)

/-- The function `GetDiffBounds(before, after)`; `none` when it returns nothing: an index
is out of range, or a loop never ends. The padded coordinates are computed in `int`. -/
def GetDiffBounds (before after : RGBA) : Option Rectangle :=
  match scanAll before after with
  | none => none
  | some s =>
    if !s.changed then some ZR
    else some ((Rect (wrap64 (s.minX - 20)) (wrap64 (s.minY - 20)) (wrap64 (s.maxX + 20))
      (wrap64 (s.maxY + 20))).Canon.Intersect after.Bounds)

/-! ## desktopinfo.go -/

/-- The struct `IconCoord`: one desktop icon. -/
structure IconCoord where
  Name : String
  Path : String
  X : Int
  Y : Int
  Width : Int
  Height : Int
deriving DecidableEq, Repr

/-- What the platform answers to the calls of `desktopDirs` and `resolveIconPath`, for one
fixed state of the filesystem. -/
structure Host where
  /-- Result of `os.UserHomeDir()`; `none` when it returns an error. -/
  home : Option String
  /-- Result of `filepath.Join(elem...)`. -/
  join : List String → String
  /-- Whether `os.Stat(p)` returns no error: the entry exists. -/
  stat : String → Bool
  /-- Result of `filepath.Glob(pattern)`: the matches, in the order returned (nil on error). -/
  glob : String → List String

/-- The function `desktopDirs()`: the user, OneDrive and public desktop directories. -/
def desktopDirs (h : Host) : List String :=
  let dirs : List String :=
    match h.home with
    | some home => [h.join [home, "Desktop"]] ++ h.glob (h.join [home, "OneDrive*", "Desktop"])
    | none => []
  dirs ++ ["C:\\Users\\Public\\Desktop"]

/-- The extensions tried by `resolveIconPath`, in the order of the source. -/
def extensions : List String :=
  [".lnk", ".url", ".exe", ".pdf", ".txt", ".docx", ".xlsx", ".pptx", ".zip", ".rar"]

/-- The loop over the extensions for one directory: the first `dir/name+ext` that exists. -/
def tryExtensions (h : Host) (dir name : String) : List String → Option String
  | [] => none
  | ext :: rest =>
    if h.stat (h.join [dir, name ++ ext]) = true then some (h.join [dir, name ++ ext])
    else tryExtensions h dir name rest

/-- The body of the loop over directories: `some p` when it executes `return p`. -/
def resolveInDir (h : Host) (dir name : String) : Option String :=
  if h.stat (h.join [dir, name]) = true then some (h.join [dir, name])
  else
    match tryExtensions h dir name extensions with
    | some p => some p
    | none =>
      match h.glob (h.join [dir, name ++ ".*"]) with
      | m :: _ => some m
      | [] => none

/-- The loop of `resolveIconPath` over a list of candidate directories. -/
def resolveIconPathIn (h : Host) (name : String) : List String → String
  | [] => ""
  | dir :: rest =>
    match resolveInDir h dir name with
    | some p => p
    | none => resolveIconPathIn h name rest

/-- The function `resolveIconPath(name)`, over the directories of `desktopDirs()`. -/
def resolveIconPath (h : Host) (name : String) : String :=
  resolveIconPathIn h name (desktopDirs h)

/-- The bounding rectangle of an element, four `int32` values. -/
structure TagRect where
  Left : Int
  Top : Int
  Right : Int
  Bottom : Int
deriving DecidableEq, Repr

/-- An element of the accessibility tree, with the fields the source reads. -/
structure Element where
  CurrentName : String
  CurrentClassName : String
  CurrentBoundingRectangle : Option TagRect
  Child : List Element

/-- A value computed in `int32`: the result wraps around to 32 bits. -/
def wrapInt32 (z : Int) : Int := (z + 2147483648) % 4294967296 - 2147483648

/-- The record appended for an element named `name` with bounding rectangle `rect`. -/
def iconOf (h : Host) (name : String) (rect : Option TagRect) : IconCoord :=
  match rect with
  | some r =>
    { Name := name, Path := resolveIconPath h name, X := r.Left, Y := r.Top,
      Width := wrapInt32 (r.Right - r.Left), Height := wrapInt32 (r.Bottom - r.Top) }
  | none =>
    { Name := name, Path := resolveIconPath h name, X := 0, Y := 0, Width := 0, Height := 0 }

/-- The loop of `GetCoord` over `childrenArray`, whose entry `i` is `none` when
`GetElement(i)` fails or yields nil, and otherwise the element as read after `elem.Name()`
and `elem.BoundingRectangle()`. -/
def GetCoord.icons (h : Host) (childrenArray : List (Option Element)) : List IconCoord :=
  childrenArray.foldl (fun icons child =>
    match child with
    | none => icons
    | some elem =>
      if elem.CurrentName = "" then icons
      else icons ++ [iconOf h elem.CurrentName elem.CurrentBoundingRectangle]) []

/-- The loop of `getViaTraversal` over the children of the list-view element. -/
def getViaTraversal.icons (h : Host) (listViewElem : Element) : List IconCoord :=
  listViewElem.Child.foldl (fun icons child =>
    if child.CurrentName = "" then icons
    else icons ++ [iconOf h child.CurrentName child.CurrentBoundingRectangle]) []

/-- Modelled from the spec: `uia.SearchElem(tree, pred)` belongs to the go-element
library, which is not among the sources. The design document describes it as "find first
matching element under a subtree", a tree walk with an early exit: it returns the first
element that satisfies `pred` in the order in which the walk visits the elements of the
tree, and nil (`none`) when no element does. The order of the walk is the parameter
`visit`. -/
def SearchElem (visit : Element → List Element) (tree : Element) (pred : Element → Bool) :
    Option Element :=
  (visit tree).find? pred

/-- The function `getViaTraversal`, where `tree` is the tree returned by
`uia.TraverseUIElementTree`; `none` is the exit of the process by `log.Fatal`. -/
def getViaTraversal (h : Host) (visit : Element → List Element) (tree : Element) :
    Option (List IconCoord) :=
  let first : Option Element := SearchElem visit tree fun e =>
    decide (e.CurrentClassName = "SysListView32" ∧ e.CurrentName = "FolderView")
  let listViewElem : Option Element :=
    match first with
    | some e => some e
    | none => SearchElem visit tree fun e => decide (e.CurrentClassName = "SysListView32")
  match listViewElem with
  | none => none
  | some e => some (getViaTraversal.icons h e)

/-- The function `GetNameBasedSearch(name)`, where `coord` is the list its call of
`GetCoord()` returned. -/
def GetNameBasedSearch (coord : List IconCoord) (name : String) : List IconCoord :=
  coord.foldl (fun result c => if c.Name = name then result ++ [c] else result) []

/-! ## Vocabulary of the properties -/

/-- Bounds held in `int` on which no increment `x += 4`, `y += 4` of the two loops wraps:
`Min` is at least -2^63 and `Max` at most 2^63 - 4. -/
def Rectangle.LoopsFit (r : Rectangle) : Prop :=
  (-9223372036854775808 ≤ r.Min.X ∧ r.Max.X ≤ 9223372036854775804) ∧
    (-9223372036854775808 ≤ r.Min.Y ∧ r.Max.Y ≤ 9223372036854775804)

instance (r : Rectangle) : Decidable r.LoopsFit := by
  unfold Rectangle.LoopsFit; infer_instance

/-- Bounds at least 20 inside the limits of `int`, so that neither the loops nor the
padding by 20 wrap: `Min` is at least -2^63 + 20 and `Max` at most 2^63 - 21. -/
def Rectangle.AwayFromLimits (r : Rectangle) : Prop :=
  (-9223372036854775788 ≤ r.Min.X ∧ r.Max.X ≤ 9223372036854775787) ∧
    (-9223372036854775788 ≤ r.Min.Y ∧ r.Max.Y ≤ 9223372036854775787)

instance (r : Rectangle) : Decidable r.AwayFromLimits := by
  unfold Rectangle.AwayFromLimits; infer_instance

/-- The sampled coordinates of a rectangle: offsets from `Min` are multiples of 4. -/
def Sampled (r : Rectangle) (x y : Int) : Prop :=
  (r.Min.X ≤ x ∧ x < r.Max.X ∧ (x - r.Min.X) % 4 = 0) ∧
    (r.Min.Y ≤ y ∧ y < r.Max.Y ∧ (y - r.Min.Y) % 4 = 0)

instance (r : Rectangle) (x y : Int) : Decidable (Sampled r x y) := by
  unfold Sampled; infer_instance

/-- Pixel `(x, y)` of `after` differs from pixel `(x, y)` of `before` in R, G or B. -/
def RGBDiffAt (before after : RGBA) (x y : Int) : Prop :=
  after.pixAt (after.PixOffset x y) ≠ before.pixAt (before.PixOffset x y) ∨
  after.pixAt (after.PixOffset x y + 1) ≠ before.pixAt (before.PixOffset x y + 1) ∨
  after.pixAt (after.PixOffset x y + 2) ≠ before.pixAt (before.PixOffset x y + 2)

instance (before after : RGBA) (x y : Int) : Decidable (RGBDiffAt before after x y) := by
  unfold RGBDiffAt; infer_instance

/-- Two buffers of identical bounds and layout, each holding all its pixels. -/
def SameLayout (before after : RGBA) : Prop :=
  before.Rect = after.Rect ∧ before.Stride = after.Stride ∧
    before.WellFormed ∧ after.WellFormed

instance (before after : RGBA) : Decidable (SameLayout before after) := by
  unfold SameLayout; infer_instance

/-- The least column `m` holding a sampled coordinate at which the buffers differ. -/
def IsMinX (before after : RGBA) (m : Int) : Prop :=
  (∃ y, Sampled after.Rect m y ∧ RGBDiffAt before after m y) ∧
    ∀ x y, Sampled after.Rect x y → RGBDiffAt before after x y → m ≤ x

/-- The greatest column `m` holding a sampled coordinate at which the buffers differ. -/
def IsMaxX (before after : RGBA) (m : Int) : Prop :=
  (∃ y, Sampled after.Rect m y ∧ RGBDiffAt before after m y) ∧
    ∀ x y, Sampled after.Rect x y → RGBDiffAt before after x y → x ≤ m

/-- The least row `m` holding a sampled coordinate at which the buffers differ. -/
def IsMinY (before after : RGBA) (m : Int) : Prop :=
  (∃ x, Sampled after.Rect x m ∧ RGBDiffAt before after x m) ∧
    ∀ x y, Sampled after.Rect x y → RGBDiffAt before after x y → m ≤ y

/-- The greatest row `m` holding a sampled coordinate at which the buffers differ. -/
def IsMaxY (before after : RGBA) (m : Int) : Prop :=
  (∃ x, Sampled after.Rect x m ∧ RGBDiffAt before after x m) ∧
    ∀ x y, Sampled after.Rect x y → RGBDiffAt before after x y → y ≤ m

/-- A reported rectangle whose `int32` differences `Right - Left` and `Bottom - Top` are
not negative and do not overflow. -/
def TagRect.Ordered (r : TagRect) : Prop :=
  (0 ≤ r.Right - r.Left ∧ r.Right - r.Left < 2147483648) ∧
    (0 ≤ r.Bottom - r.Top ∧ r.Bottom - r.Top < 2147483648)

instance (r : TagRect) : Decidable r.Ordered := by
  unfold TagRect.Ordered; infer_instance

/-- Directory `dir` yields a hit for `name`: the exact entry exists, or one of the guessed
extensions does, or the glob `dir/name.*` has a match. -/
def Hit (h : Host) (dir name : String) : Prop :=
  h.stat (h.join [dir, name]) = true ∨
    (∃ ext ∈ extensions, h.stat (h.join [dir, name ++ ext]) = true) ∨
    h.glob (h.join [dir, name ++ ".*"]) ≠ []

instance (h : Host) (dir name : String) : Decidable (Hit h dir name) := by
  unfold Hit; infer_instance

/-- Path `p` is one of the paths the search of `dir` for `name` can produce: `dir/name`,
`dir/name+ext` for a listed extension, or a match of the glob `dir/name.*`. -/
def Candidate (h : Host) (dir name p : String) : Prop :=
  p = h.join [dir, name] ∨
    (∃ ext ∈ extensions, p = h.join [dir, name ++ ext]) ∨
    p ∈ h.glob (h.join [dir, name ++ ".*"])

instance (h : Host) (dir name p : String) : Decidable (Candidate h dir name p) := by
  unfold Candidate; infer_instance

/-! ## The scan as a fold over the sampled points -/

/-- The integers `lo`, `lo + 4`, `lo + 8`, ... below `hi`: the values of the variable of
`for v := lo; v < hi; v += 4` when no increment wraps. -/
def everyFourth (lo hi : Int) : List Int :=
  (List.range ((hi - lo + 3) / 4).toNat).map fun (i : Nat) => lo + 4 * (i : Int)

/-- The value of the variable of `for v := lo; v < hi; v += 4` at the test number `k` of
its condition, counted from 0: `lo`, then `lo + 4 * k` wrapped to 64 bits. -/
def loopVar (lo : Int) (k : Nat) : Int :=
  if k = 0 then lo else wrap64 (lo + 4 * (k : Int))

/-- The pure form of one iteration, for a total difference test `D`. -/
def markIf (D : Int × Int → Bool) (s : Scan) (p : Int × Int) : Scan :=
  if D p = true then s.mark p.1 p.2 else s

/-- The sampled points in scan order: rows outermost. -/
def samplePoints (r : Rectangle) : List (Int × Int) :=
  (everyFourth r.Min.Y r.Max.Y).flatMap fun y =>
    (everyFourth r.Min.X r.Max.X).map fun x => (x, y)

/-- The total difference test on a point, as a boolean. -/
def diffTest (before after : RGBA) (p : Int × Int) : Bool :=
  decide (RGBDiffAt before after p.1 p.2)

/-- What the scan has computed when both loops are done. -/
structure Hull (before after : RGBA) (s : Scan) : Prop where
  changed_iff : s.changed = true ↔
    ∃ x y, Sampled after.Rect x y ∧ RGBDiffAt before after x y
  minX_le : ∀ x y, Sampled after.Rect x y → RGBDiffAt before after x y → s.minX ≤ x
  minY_le : ∀ x y, Sampled after.Rect x y → RGBDiffAt before after x y → s.minY ≤ y
  le_maxX : ∀ x y, Sampled after.Rect x y → RGBDiffAt before after x y → x ≤ s.maxX
  le_maxY : ∀ x y, Sampled after.Rect x y → RGBDiffAt before after x y → y ≤ s.maxY
  minX_mem : s.changed = true →
    ∃ y, Sampled after.Rect s.minX y ∧ RGBDiffAt before after s.minX y
  minY_mem : s.changed = true →
    ∃ x, Sampled after.Rect x s.minY ∧ RGBDiffAt before after x s.minY
  maxX_nonneg : 0 ≤ s.maxX
  maxY_nonneg : 0 ≤ s.maxY
  maxX_mem : s.maxX = 0 ∨ ∃ y, Sampled after.Rect s.maxX y ∧ RGBDiffAt before after s.maxX y
  maxY_mem : s.maxY = 0 ∨ ∃ x, Sampled after.Rect x s.maxY ∧ RGBDiffAt before after x s.maxY

/-! ## Concrete buffers, filesystems and trees -/

/-- A 5 x 3 capture with origin (0,0), every byte 7. -/
def grey5x3 : RGBA :=
  { Pix := List.replicate 60 7, Stride := 20, Rect := ⟨⟨0, 0⟩, ⟨5, 3⟩⟩ }

/-- A 6 x 2 capture with origin (-2, 5), every byte 0. -/
def dark6x2 : RGBA :=
  { Pix := List.replicate 48 0, Stride := 24, Rect := ⟨⟨-2, 5⟩, ⟨4, 7⟩⟩ }

/-- The capture `dark6x2` with the red byte of pixel (2, 5) set to 200. -/
def dark6x2Lit : RGBA :=
  { Pix := List.replicate 16 0 ++ [200] ++ List.replicate 31 0, Stride := 24,
    Rect := ⟨⟨-2, 5⟩, ⟨4, 7⟩⟩ }

/-- A 200 x 200 capture with origin (0,0), every byte 0. -/
def blank200 : RGBA :=
  { Pix := List.replicate 160000 0, Stride := 800, Rect := ⟨⟨0, 0⟩, ⟨200, 200⟩⟩ }

/-- The capture `blank200` with the four bytes of every pixel of rows and columns
100 to 103 set to 255. -/
def block200 : RGBA :=
  { Pix := (List.range 160000).map fun i =>
      if 100 ≤ i / 800 ∧ i / 800 ≤ 103 ∧ 100 ≤ i % 800 / 4 ∧ i % 800 / 4 ≤ 103 then 255 else 0
    Stride := 800
    Rect := ⟨⟨0, 0⟩, ⟨200, 200⟩⟩ }

/-- A 24 x 1 capture with origin (-24, -1), left of and above the primary display;
every byte 0. -/
def left24 : RGBA :=
  { Pix := List.replicate 96 0, Stride := 96, Rect := ⟨⟨-24, -1⟩, ⟨0, 0⟩⟩ }

/-- The capture `left24` with the red byte of its first pixel, (-24, -1), set to 9. -/
def left24Lit : RGBA :=
  { Pix := [9, 0, 0, 0] ++ List.replicate 92 0, Stride := 96, Rect := ⟨⟨-24, -1⟩, ⟨0, 0⟩⟩ }

/-- A machine without a resolvable home directory whose public desktop holds `Report.lnk`
and `Report.pdf`, and no entry `Report`. -/
def lnkAndPdfHost : Host :=
  { home := none
    join := fun parts => String.intercalate "\\" parts
    stat := fun p =>
      p = "C:\\Users\\Public\\Desktop\\Report.lnk" ||
        p = "C:\\Users\\Public\\Desktop\\Report.pdf"
    glob := fun pat =>
      if pat = "C:\\Users\\Public\\Desktop\\Report.*" then
        ["C:\\Users\\Public\\Desktop\\Report.lnk",
          "C:\\Users\\Public\\Desktop\\Report.pdf"]
      else [] }

/-- A directory `D:\\Desk` holding `Report.pdf`, `Report.zip` and `Budget.xlsx`. -/
def pdfAndZipHost : Host :=
  { home := none
    join := fun parts => String.intercalate "\\" parts
    stat := fun p =>
      p = "D:\\Desk\\Report.pdf" || p = "D:\\Desk\\Report.zip" ||
        p = "D:\\Desk\\Budget.xlsx"
    glob := fun pat =>
      if pat = "D:\\Desk\\Report.*" then ["D:\\Desk\\Report.pdf", "D:\\Desk\\Report.zip"]
      else if pat = "D:\\Desk\\Budget.*" then ["D:\\Desk\\Budget.xlsx"]
      else [] }

/-- A machine of user `u`: the user desktop holds only `Notes.md`, the OneDrive desktop
holds `Report.pdf`, the public desktop holds an entry named exactly `Report`. -/
def threeDesktopsHost : Host :=
  { home := some "C:\\Users\\u"
    join := fun parts => String.intercalate "\\" parts
    stat := fun p =>
      p = "C:\\Users\\u\\Desktop\\Notes.md" ||
        p = "C:\\Users\\u\\OneDrive\\Desktop\\Report.pdf" ||
        p = "C:\\Users\\Public\\Desktop\\Report"
    glob := fun pat =>
      if pat = "C:\\Users\\u\\OneDrive*\\Desktop" then ["C:\\Users\\u\\OneDrive\\Desktop"]
      else if pat = "C:\\Users\\u\\Desktop\\Notes.*" then ["C:\\Users\\u\\Desktop\\Notes.md"]
      else if pat = "C:\\Users\\u\\OneDrive\\Desktop\\Report.*" then
        ["C:\\Users\\u\\OneDrive\\Desktop\\Report.pdf"]
      else [] }

/-- A 5 x 1 capture with origin (0,0), every byte 0. -/
def strip5 : RGBA :=
  { Pix := List.replicate 20 0, Stride := 20, Rect := ⟨⟨0, 0⟩, ⟨5, 1⟩⟩ }

/-- The capture `strip5` with the alpha byte of the sampled pixel (0,0) set to 77 and the
four bytes of the unsampled pixel (1,0) set to 1, 2, 3, 4. -/
def strip5Touched : RGBA :=
  { Pix := [0, 0, 0, 77, 1, 2, 3, 4] ++ List.replicate 12 0, Stride := 20,
    Rect := ⟨⟨0, 0⟩, ⟨5, 1⟩⟩ }

/-- An 8 x 1 capture with origin (0,0): the red byte of pixel (4,0) is 9, every other
byte 0. -/
def row8 : RGBA :=
  { Pix := List.replicate 16 0 ++ [9] ++ List.replicate 15 0, Stride := 32,
    Rect := ⟨⟨0, 0⟩, ⟨8, 1⟩⟩ }

/-- A 1 x 5 capture with origin (0,0), every byte 0. -/
def col5 : RGBA :=
  { Pix := List.replicate 20 0, Stride := 4, Rect := ⟨⟨0, 0⟩, ⟨1, 5⟩⟩ }

/-- A 1 x 1 capture with origin (0,0), every byte 0. -/
def dot1 : RGBA :=
  { Pix := [0, 0, 0, 0], Stride := 4, Rect := ⟨⟨0, 0⟩, ⟨1, 1⟩⟩ }

/-- A 2 x 1 capture with origin (0,0): pixel (0,0) holds 0, 0, 0, 0 and pixel (1,0)
holds 5, 5, 5, 5. -/
def pair2 : RGBA :=
  { Pix := [0, 0, 0, 0, 5, 5, 5, 5], Stride := 8, Rect := ⟨⟨0, 0⟩, ⟨2, 1⟩⟩ }

/-- A 2 x 1 capture whose right edge is the largest `int`, as `image.NewRGBA` makes it for
the bounds (2^63 - 3, 0)-(2^63 - 1, 1): stride 8, 8 bytes, every byte 0. -/
def edge2 : RGBA :=
  { Pix := List.replicate 8 0, Stride := 8,
    Rect := ⟨⟨9223372036854775805, 0⟩, ⟨9223372036854775807, 1⟩⟩ }

/-- A 1 x 1 capture whose lower edge is the largest `int`, bounds (0, 2^63 - 2)-(1, 2^63 - 1):
stride 4, 4 bytes, every byte 0. -/
def bottom1 : RGBA :=
  { Pix := [0, 0, 0, 0], Stride := 4,
    Rect := ⟨⟨0, 9223372036854775806⟩, ⟨1, 9223372036854775807⟩⟩ }

/-- A 1 x 1 capture whose left edge is the least `int`, bounds (-2^63, 0)-(-2^63 + 1, 1):
stride 4, 4 bytes, every byte 0. -/
def lowest1 : RGBA :=
  { Pix := [0, 0, 0, 0], Stride := 4,
    Rect := ⟨⟨-9223372036854775808, 0⟩, ⟨-9223372036854775807, 1⟩⟩ }

/-- The capture `lowest1` with the red byte of its only pixel set to 1. -/
def lowest1Lit : RGBA :=
  { Pix := [1, 0, 0, 0], Stride := 4,
    Rect := ⟨⟨-9223372036854775808, 0⟩, ⟨-9223372036854775807, 1⟩⟩ }

/-- A 1 x 1 capture with bounds (2^63 - 5, 0)-(2^63 - 4, 1), on which no increment of the
loops wraps: stride 4, 4 bytes, every byte 0. -/
def high1 : RGBA :=
  { Pix := [0, 0, 0, 0], Stride := 4,
    Rect := ⟨⟨9223372036854775803, 0⟩, ⟨9223372036854775804, 1⟩⟩ }

/-- The capture `high1` with the red byte of its only pixel set to 1. -/
def high1Lit : RGBA :=
  { Pix := [1, 0, 0, 0], Stride := 4,
    Rect := ⟨⟨9223372036854775803, 0⟩, ⟨9223372036854775804, 1⟩⟩ }

/-- A 1 x 5 capture with origin (0,0) and stride 4: pixel (0, y) holds y + 1, 0, 0, 255. -/
def tall5 : RGBA :=
  { Pix := [1, 0, 0, 255, 2, 0, 0, 255, 3, 0, 0, 255, 4, 0, 0, 255, 5, 0, 0, 255],
    Stride := 4, Rect := ⟨⟨0, 0⟩, ⟨1, 5⟩⟩ }

/-- The picture of `tall5` at stride 8, as the sub-image of column 0 of a 2 x 5 image whose
column 1 is 0: same bounds, pixel (0, y) holds y + 1, 0, 0, 255. -/
def tall5Padded : RGBA :=
  { Pix := [1, 0, 0, 255, 0, 0, 0, 0, 2, 0, 0, 255, 0, 0, 0, 0, 3, 0, 0, 255, 0, 0, 0, 0,
      4, 0, 0, 255, 0, 0, 0, 0, 5, 0, 0, 255, 0, 0, 0, 0],
    Stride := 8, Rect := ⟨⟨0, 0⟩, ⟨1, 5⟩⟩ }

/-- An element named `Trash` whose reported rectangle has its right edge left of its left
edge: (10, 10, 5, 20). -/
def flippedElem : Element :=
  { CurrentName := "Trash", CurrentClassName := "", Child := [],
    CurrentBoundingRectangle := some ⟨10, 10, 5, 20⟩ }

/-- An element named `Wide` whose reported rectangle spans more than 2^31 - 1 columns:
(-2000000000, 0, 2000000000, 10), all four values within `int32`. -/
def wideElem : Element :=
  { CurrentName := "Wide", CurrentClassName := "", Child := [],
    CurrentBoundingRectangle := some ⟨-2000000000, 0, 2000000000, 10⟩ }

/-- An element named `Report` with the rectangle (100, 200, 164, 280). -/
def reportElem : Element :=
  { CurrentName := "Report", CurrentClassName := "", Child := [],
    CurrentBoundingRectangle := some ⟨100, 200, 164, 280⟩ }

/-- An element named `Bin` for which no rectangle was reported. -/
def bareElem : Element :=
  { CurrentName := "Bin", CurrentClassName := "", Child := [],
    CurrentBoundingRectangle := none }

mutual
/-- The elements of a tree, parent before children, children in order. -/
def preorder : Element → List Element
  | ⟨n, c, r, ch⟩ => ⟨n, c, r, ch⟩ :: preorderAll ch
/-- The elements of a list of trees, tree after tree. -/
def preorderAll : List Element → List Element
  | [] => []
  | e :: rest => preorder e ++ preorderAll rest
end

/-- A captured tree: the root `Desktop` has a list view named `Other` as first child and
`Program Manager` as second child, whose only child is the list view `FolderView`, which
holds the icon `Report`. -/
def desktopTree : Element :=
  { CurrentName := "Desktop", CurrentClassName := "#32769", CurrentBoundingRectangle := none,
    Child := [
      { CurrentName := "Other", CurrentClassName := "SysListView32",
        CurrentBoundingRectangle := none, Child := [flippedElem] },
      { CurrentName := "Program Manager", CurrentClassName := "Progman",
        CurrentBoundingRectangle := none,
        Child := [{ CurrentName := "FolderView", CurrentClassName := "SysListView32",
                    CurrentBoundingRectangle := none, Child := [reportElem] }] }] }

/-- A machine of user `u` whose desktop is redirected to OneDrive: `C:\Users\u\Desktop`
does not exist, the OneDrive desktop exists and holds `Report.pdf`, the public desktop
exists and is empty. As `filepath.Join` does, `join` leaves out empty elements. -/
def redirectedDesktopHost : Host :=
  { home := some "C:\\Users\\u"
    join := fun parts => String.intercalate "\\" (parts.filter fun s => s ≠ "")
    stat := fun p =>
      p = "C:\\Users\\u\\OneDrive\\Desktop" ||
        p = "C:\\Users\\u\\OneDrive\\Desktop\\Report.pdf" ||
        p = "C:\\Users\\Public\\Desktop"
    glob := fun pat =>
      if pat = "C:\\Users\\u\\OneDrive*\\Desktop" then ["C:\\Users\\u\\OneDrive\\Desktop"]
      else if pat = "C:\\Users\\u\\OneDrive\\Desktop\\Report.*" then
        ["C:\\Users\\u\\OneDrive\\Desktop\\Report.pdf"]
      else [] }

/-! ## Auxiliary lemmas -/

theorem mem_everyFourth (lo hi c : Int) :
    c ∈ everyFourth lo hi ↔ lo ≤ c ∧ c < hi ∧ (c - lo) % 4 = 0 := by
  unfold everyFourth
  simp only [List.mem_map, List.mem_range]
  constructor
  · rintro ⟨i, hi', rfl⟩
    omega
  · intro h
    refine ⟨((c - lo) / 4).toNat, ?_, ?_⟩ <;> omega

theorem everyFourth_of_not_lt (lo hi : Int) (h : ¬ lo < hi) : everyFourth lo hi = [] := by
  have h0 : ((hi - lo + 3) / 4).toNat = 0 := by omega
  simp [everyFourth, h0]

theorem everyFourth_of_lt (lo hi : Int) (h : lo < hi) :
    everyFourth lo hi = lo :: everyFourth (lo + 4) hi := by
  obtain ⟨n, hn⟩ : ∃ n : Nat, ((hi - lo + 3) / 4).toNat = n + 1 :=
    ⟨((hi - lo + 3) / 4).toNat - 1, by omega⟩
  have hn' : ((hi - (lo + 4) + 3) / 4).toNat = n := by omega
  simp only [everyFourth, hn, hn', List.range_succ_eq_map, List.map_cons, List.map_map]
  refine congrArg₂ _ (by simp) (List.map_congr_left ?_)
  intro i _
  simp only [Function.comp, Nat.succ_eq_add_one]
  push_cast
  ring

theorem wrap64_of_range (z : Int) (h0 : -9223372036854775808 ≤ z)
    (h1 : z < 9223372036854775808) : wrap64 z = z := by
  unfold wrap64
  omega

theorem forLoop_eq_foldlM {σ : Type} (hi : Int) (body : σ → Int → Option σ)
    (hhi : hi ≤ 9223372036854775804) :
    ∀ (n : Nat) (lo : Int) (s : σ), -9223372036854775808 ≤ lo →
      (everyFourth lo hi).length < n →
      forLoop hi body n lo s = (everyFourth lo hi).foldlM body s := by
  intro n
  induction n with
  | zero => intro lo s _ hlen; omega
  | succ n ih =>
    intro lo s hlo hlen
    by_cases h : lo < hi
    · rw [everyFourth_of_lt lo hi h] at hlen ⊢
      have hw : wrap64 (lo + 4) = lo + 4 := wrap64_of_range _ (by omega) (by omega)
      simp only [forLoop, if_pos h, List.foldlM, hw]
      cases hb : body s lo with
      | none => rfl
      | some s' =>
        exact ih (lo + 4) s' (by omega) (by simpa using hlen)
    · rw [everyFourth_of_not_lt lo hi h]
      simp [forLoop, h]

theorem forLoop_fits {σ : Type} (lo hi : Int) (body : σ → Int → Option σ) (s : σ)
    (hlo : -9223372036854775808 ≤ lo) (hhi : hi ≤ 9223372036854775804) :
    forLoop hi body loopFuel lo s = (everyFourth lo hi).foldlM body s := by
  apply forLoop_eq_foldlM hi body hhi loopFuel lo s hlo
  simp only [everyFourth, List.length_map, List.length_range, loopFuel]
  omega

theorem loopVar_succ (lo : Int) (k : Nat) :
    loopVar lo (k + 1) = loopVar (wrap64 (lo + 4)) k := by
  unfold loopVar wrap64
  by_cases hk : k = 0
  · subst hk; simp
  · simp only [hk, if_false, Nat.succ_ne_zero, Nat.add_eq_zero, one_ne_zero, and_false]
    push_cast
    omega

theorem loopVar_period (lo : Int) (k : Nat) (hk : 0 < k) :
    loopVar lo (k + 4611686018427387904) = loopVar lo k := by
  unfold loopVar wrap64
  have h1 : k ≠ 0 := by omega
  have h2 : k + 4611686018427387904 ≠ 0 := by omega
  simp only [h1, h2, if_false]
  push_cast
  omega

theorem forLoop_mono {σ : Type} (hi : Int) (body : σ → Int → Option σ) (r : σ) :
    ∀ (n m : Nat) (v : Int) (s : σ), n ≤ m → forLoop hi body n v s = some r →
      forLoop hi body m v s = some r := by
  intro n
  induction n with
  | zero => intro m v s _ h; simp [forLoop] at h
  | succ n ih =>
    intro m v s hnm h
    obtain ⟨m, rfl⟩ : ∃ m', m = m' + 1 := ⟨m - 1, by omega⟩
    simp only [forLoop] at h ⊢
    by_cases hv : v < hi
    · simp only [if_pos hv] at h ⊢
      cases hb : body s v with
      | none => simp [hb] at h
      | some s' =>
        simp only [hb] at h ⊢
        exact ih m _ s' (by omega) h
    · simp only [if_neg hv] at h ⊢
      exact h

theorem forLoop_exit {σ : Type} (hi : Int) (body : σ → Int → Option σ) (r : σ) :
    ∀ (n : Nat) (v : Int) (s : σ), forLoop hi body n v s = some r →
      ∃ k, (∀ j, j < k → loopVar v j < hi) ∧ ¬ loopVar v k < hi ∧
        forLoop hi body (k + 1) v s = some r := by
  intro n
  induction n with
  | zero => intro v s h; simp [forLoop] at h
  | succ n ih =>
    intro v s h
    by_cases hv : v < hi
    · simp only [forLoop, if_pos hv] at h
      cases hb : body s v with
      | none => simp [hb] at h
      | some s' =>
        simp only [hb] at h
        obtain ⟨k, hlt, hge, hrun⟩ := ih _ s' h
        refine ⟨k + 1, ?_, ?_, ?_⟩
        · intro j hj
          cases j with
          | zero => simpa [loopVar] using hv
          | succ j => rw [loopVar_succ]; exact hlt j (by omega)
        · rw [loopVar_succ]; exact hge
        · simp only [forLoop, if_pos hv, hb]
          exact hrun
    · refine ⟨0, by intro j hj; omega, by simpa [loopVar] using hv, ?_⟩
      simp only [forLoop, if_neg hv] at h ⊢
      exact h

theorem forLoop_fuel_enough {σ : Type} (hi : Int) (body : σ → Int → Option σ) (n : Nat)
    (v : Int) (s r : σ) (h : forLoop hi body n v s = some r) :
    forLoop hi body loopFuel v s = some r := by
  obtain ⟨k, hlt, hge, hrun⟩ := forLoop_exit hi body r n v s h
  have hk : k ≤ 4611686018427387904 := by
    by_contra hbig
    have hper := loopVar_period v (k - 4611686018427387904) (by omega)
    have hk' : k - 4611686018427387904 + 4611686018427387904 = k := by omega
    rw [hk'] at hper
    have hlt' := hlt (k - 4611686018427387904) (by omega)
    rw [← hper] at hlt'
    exact hge hlt'
  exact forLoop_mono hi body r (k + 1) loopFuel v s (by unfold loopFuel; omega) hrun

theorem foldlM_eq_foldl {α β : Type} (f : β → α → Option β) (g : β → α → β) (xs : List α)
    (h : ∀ b, ∀ a ∈ xs, f b a = some (g b a)) (b : β) :
    xs.foldlM f b = some (xs.foldl g b) := by
  induction xs generalizing b with
  | nil => rfl
  | cons a t ih =>
    simp only [List.foldlM, List.foldl_cons]
    rw [h b a (List.mem_cons_self _ _)]
    exact ih (fun b a ha => h b a (List.mem_cons_of_mem _ ha)) _

theorem pixAt_eq_some (p : RGBA) (i : Int) (h0 : 0 ≤ i) (h1 : i < p.Pix.length) :
    ∃ v, p.pixAt i = some v := by
  have h2 : i.toNat < p.Pix.length := by omega
  exact ⟨p.Pix[i.toNat], by simp [RGBA.pixAt, h0, List.getElem?_eq_getElem h2]⟩

theorem offset_in_range (p : RGBA) (hw : p.WellFormed) (x y : Int)
    (hx : p.Rect.Min.X ≤ x ∧ x < p.Rect.Max.X) (hy : p.Rect.Min.Y ≤ y ∧ y < p.Rect.Max.Y) :
    0 ≤ p.PixOffset x y ∧ p.PixOffset x y + 3 < p.Pix.length := by
  obtain ⟨hlen, hw⟩ := hw
  rcases hw with he | ⟨hs, hl⟩
  · simp [Rectangle.Empty] at he
    omega
  · simp only [Rectangle.Dx, Rectangle.Dy] at hs hl
    unfold RGBA.PixOffset
    have h1 : 0 ≤ (y - p.Rect.Min.Y) * p.Stride :=
      mul_nonneg (by omega) (by omega)
    have h2 : (y - p.Rect.Min.Y) * p.Stride ≤ (p.Rect.Max.Y - p.Rect.Min.Y - 1) * p.Stride :=
      mul_le_mul_of_nonneg_right (by omega) (by omega)
    rw [wrap64_of_range _ (by omega) (by omega)]
    constructor <;> omega

theorem rgbDiffers_eq (before after : RGBA) (h : SameLayout before after) (x y : Int)
    (hx : after.Rect.Min.X ≤ x ∧ x < after.Rect.Max.X)
    (hy : after.Rect.Min.Y ≤ y ∧ y < after.Rect.Max.Y) :
    rgbDiffers before after (after.PixOffset x y) = some (decide (RGBDiffAt before after x y)) := by
  obtain ⟨hr, hs, hwb, hwa⟩ := h
  have hoff : before.PixOffset x y = after.PixOffset x y := by
    simp [RGBA.PixOffset, hr, hs]
  have ha := offset_in_range after hwa x y hx hy
  have hb := offset_in_range before hwb x y (hr ▸ hx) (hr ▸ hy)
  rw [hoff] at hb
  obtain ⟨a0, ha0⟩ := pixAt_eq_some after (after.PixOffset x y) (by omega) (by omega)
  obtain ⟨a1, ha1⟩ := pixAt_eq_some after (after.PixOffset x y + 1) (by omega) (by omega)
  obtain ⟨a2, ha2⟩ := pixAt_eq_some after (after.PixOffset x y + 2) (by omega) (by omega)
  obtain ⟨b0, hb0⟩ := pixAt_eq_some before (after.PixOffset x y) (by omega) (by omega)
  obtain ⟨b1, hb1⟩ := pixAt_eq_some before (after.PixOffset x y + 1) (by omega) (by omega)
  obtain ⟨b2, hb2⟩ := pixAt_eq_some before (after.PixOffset x y + 2) (by omega) (by omega)
  have hlen := hwa.1
  have w1 : wrap64 (after.PixOffset x y + 1) = after.PixOffset x y + 1 :=
    wrap64_of_range _ (by omega) (by omega)
  have w2 : wrap64 (after.PixOffset x y + 2) = after.PixOffset x y + 2 :=
    wrap64_of_range _ (by omega) (by omega)
  simp only [rgbDiffers, byteDiffers, RGBDiffAt, hoff, w1, w2, ha0, ha1, ha2, hb0, hb1, hb2]
  by_cases h0 : a0 = b0 <;> by_cases h1 : a1 = b1 <;> by_cases h2 : a2 = b2 <;>
    simp [orElse, h0, h1, h2]


theorem mem_samplePoints (r : Rectangle) (p : Int × Int) :
    p ∈ samplePoints r ↔ Sampled r p.1 p.2 := by
  obtain ⟨x, y⟩ := p
  simp only [samplePoints, List.mem_flatMap, List.mem_map, mem_everyFourth, Sampled,
    Prod.mk.injEq]
  constructor
  · rintro ⟨y', hy, x', hx, rfl, rfl⟩
    exact ⟨hx, hy⟩
  · rintro ⟨hx, hy⟩
    exact ⟨y, hy, x, hx, rfl, rfl⟩

theorem foldl_min_spec {α : Type} (key : α → Int) (D : α → Bool) (l : List α) (m0 : Int) :
    l.foldl (fun m a => if D a = true then (if key a < m then key a else m) else m) m0 ≤ m0 ∧
    (∀ a ∈ l, D a = true →
      l.foldl (fun m a => if D a = true then (if key a < m then key a else m) else m) m0 ≤ key a) ∧
    (l.foldl (fun m a => if D a = true then (if key a < m then key a else m) else m) m0 = m0 ∨
      ∃ a ∈ l, D a = true ∧
        l.foldl (fun m a => if D a = true then (if key a < m then key a else m) else m) m0
          = key a) := by
  induction l generalizing m0 with
  | nil => simp
  | cons a t ih =>
    simp only [List.foldl_cons, List.mem_cons]
    have hv : (if D a = true then (if key a < m0 then key a else m0) else m0) ≤ m0 ∧
        (D a = true → (if D a = true then (if key a < m0 then key a else m0) else m0) ≤ key a) ∧
        ((if D a = true then (if key a < m0 then key a else m0) else m0) = m0 ∨
          (D a = true ∧ (if D a = true then (if key a < m0 then key a else m0) else m0) = key a)) := by
      by_cases hD : D a = true <;> by_cases hk : key a < m0 <;> simp [hD, hk] <;> omega
    generalize (if D a = true then (if key a < m0 then key a else m0) else m0) = v at hv
    obtain ⟨h1, h2, h3⟩ := ih v
    obtain ⟨v1, v2, v3⟩ := hv
    refine ⟨by omega, ?_, ?_⟩
    · rintro b (rfl | hb) hD
      · have := v2 hD
        omega
      · exact h2 b hb hD
    · rcases h3 with h3 | ⟨b, hb, hD, h3⟩
      · rcases v3 with v3 | ⟨hD, v3⟩
        · exact Or.inl (by omega)
        · exact Or.inr ⟨a, Or.inl rfl, hD, by omega⟩
      · exact Or.inr ⟨b, Or.inr hb, hD, h3⟩

theorem foldl_max_spec {α : Type} (key : α → Int) (D : α → Bool) (l : List α) (m0 : Int) :
    m0 ≤ l.foldl (fun m a => if D a = true then (if key a > m then key a else m) else m) m0 ∧
    (∀ a ∈ l, D a = true →
      key a ≤ l.foldl (fun m a => if D a = true then (if key a > m then key a else m) else m) m0) ∧
    (l.foldl (fun m a => if D a = true then (if key a > m then key a else m) else m) m0 = m0 ∨
      ∃ a ∈ l, D a = true ∧
        l.foldl (fun m a => if D a = true then (if key a > m then key a else m) else m) m0
          = key a) := by
  induction l generalizing m0 with
  | nil => simp
  | cons a t ih =>
    simp only [List.foldl_cons, List.mem_cons]
    have hv : m0 ≤ (if D a = true then (if key a > m0 then key a else m0) else m0) ∧
        (D a = true → key a ≤ (if D a = true then (if key a > m0 then key a else m0) else m0)) ∧
        ((if D a = true then (if key a > m0 then key a else m0) else m0) = m0 ∨
          (D a = true ∧ (if D a = true then (if key a > m0 then key a else m0) else m0) = key a)) := by
      by_cases hD : D a = true <;> by_cases hk : key a > m0 <;> simp [hD, hk] <;> omega
    generalize (if D a = true then (if key a > m0 then key a else m0) else m0) = v at hv
    obtain ⟨h1, h2, h3⟩ := ih v
    obtain ⟨v1, v2, v3⟩ := hv
    refine ⟨by omega, ?_, ?_⟩
    · rintro b (rfl | hb) hD
      · have := v2 hD
        omega
      · exact h2 b hb hD
    · rcases h3 with h3 | ⟨b, hb, hD, h3⟩
      · rcases v3 with v3 | ⟨hD, v3⟩
        · exact Or.inl (by omega)
        · exact Or.inr ⟨a, Or.inl rfl, hD, by omega⟩
      · exact Or.inr ⟨b, Or.inr hb, hD, h3⟩

theorem foldl_flag_spec {α : Type} (D : α → Bool) (l : List α) (c0 : Bool) :
    l.foldl (fun c a => if D a = true then true else c) c0 = true ↔
      c0 = true ∨ ∃ a ∈ l, D a = true := by
  induction l generalizing c0 with
  | nil => simp
  | cons a t ih =>
    simp only [List.foldl_cons, List.mem_cons, ih]
    by_cases hD : D a = true
    · simp only [hD, if_true, true_or, true_iff]
      exact Or.inr ⟨a, Or.inl rfl, hD⟩
    · simp only [hD, if_false]
      constructor
      · rintro (h | ⟨b, hb, hb'⟩)
        · exact Or.inl h
        · exact Or.inr ⟨b, Or.inr hb, hb'⟩
      · rintro (h | ⟨b, rfl | hb, hb'⟩)
        · exact Or.inl h
        · exact absurd hb' hD
        · exact Or.inr ⟨b, hb, hb'⟩

theorem markIf_minX (D : Int × Int → Bool) (l : List (Int × Int)) (s : Scan) :
    (l.foldl (markIf D) s).minX =
      l.foldl (fun m a => if D a = true then (if a.1 < m then a.1 else m) else m) s.minX := by
  refine (List.foldl_hom Scan.minX _ _ l s ?_).symm
  intro s p
  by_cases hD : D p = true <;> simp [markIf, Scan.mark, hD]

theorem markIf_minY (D : Int × Int → Bool) (l : List (Int × Int)) (s : Scan) :
    (l.foldl (markIf D) s).minY =
      l.foldl (fun m a => if D a = true then (if a.2 < m then a.2 else m) else m) s.minY := by
  refine (List.foldl_hom Scan.minY _ _ l s ?_).symm
  intro s p
  by_cases hD : D p = true <;> simp [markIf, Scan.mark, hD]

theorem markIf_maxX (D : Int × Int → Bool) (l : List (Int × Int)) (s : Scan) :
    (l.foldl (markIf D) s).maxX =
      l.foldl (fun m a => if D a = true then (if a.1 > m then a.1 else m) else m) s.maxX := by
  refine (List.foldl_hom Scan.maxX _ _ l s ?_).symm
  intro s p
  by_cases hD : D p = true <;> simp [markIf, Scan.mark, hD]

theorem markIf_maxY (D : Int × Int → Bool) (l : List (Int × Int)) (s : Scan) :
    (l.foldl (markIf D) s).maxY =
      l.foldl (fun m a => if D a = true then (if a.2 > m then a.2 else m) else m) s.maxY := by
  refine (List.foldl_hom Scan.maxY _ _ l s ?_).symm
  intro s p
  by_cases hD : D p = true <;> simp [markIf, Scan.mark, hD]

theorem markIf_changed (D : Int × Int → Bool) (l : List (Int × Int)) (s : Scan) :
    (l.foldl (markIf D) s).changed =
      l.foldl (fun c a => if D a = true then true else c) s.changed := by
  refine (List.foldl_hom Scan.changed _ _ l s ?_).symm
  intro s p
  by_cases hD : D p = true <;> simp [markIf, Scan.mark, hD]


theorem foldl_rows (D : Int × Int → Bool) (xs ys : List Int) (s : Scan) :
    ys.foldl (fun s y => xs.foldl (fun s x => markIf D s (x, y)) s) s =
      (ys.flatMap fun y => xs.map fun x => (x, y)).foldl (markIf D) s := by
  induction ys generalizing s with
  | nil => rfl
  | cons y t ih =>
    simp only [List.foldl_cons, List.flatMap_cons, List.foldl_append, List.foldl_map]
    exact ih _

theorem scanPixel_eq (before after : RGBA) (h : SameLayout before after) (x y : Int)
    (hx : x ∈ everyFourth after.Rect.Min.X after.Rect.Max.X)
    (hy : y ∈ everyFourth after.Rect.Min.Y after.Rect.Max.Y) (s : Scan) :
    scanPixel before after y s x = some (markIf (diffTest before after) s (x, y)) := by
  rw [mem_everyFourth] at hx hy
  unfold scanPixel
  rw [rgbDiffers_eq before after h x y ⟨hx.1, hx.2.1⟩ ⟨hy.1, hy.2.1⟩]
  by_cases hD : RGBDiffAt before after x y <;> simp [markIf, diffTest, hD]

theorem scanRow_fits (before after : RGBA) (hfit : after.Rect.LoopsFit) (s : Scan) (y : Int) :
    scanRow before after s y =
      (everyFourth after.Rect.Min.X after.Rect.Max.X).foldlM (scanPixel before after y) s :=
  forLoop_fits _ _ _ _ hfit.1.1 hfit.1.2

theorem scanAll_fits (before after : RGBA) (hfit : after.Rect.LoopsFit) :
    scanAll before after =
      (everyFourth after.Rect.Min.Y after.Rect.Max.Y).foldlM (scanRow before after)
        (scanInit after) :=
  forLoop_fits _ _ _ _ hfit.2.1 hfit.2.2

theorem scanAll_eq (before after : RGBA) (h : SameLayout before after)
    (hfit : after.Rect.LoopsFit) :
    scanAll before after =
      some ((samplePoints after.Rect).foldl (markIf (diffTest before after)) (scanInit after)) := by
  rw [scanAll_fits before after hfit]
  unfold samplePoints
  rw [← foldl_rows]
  refine foldlM_eq_foldl _ _ _ ?_ _
  intro s y hy
  rw [scanRow_fits before after hfit]
  refine foldlM_eq_foldl _ _ _ ?_ _
  intro s x hx
  exact scanPixel_eq before after h x y hx hy s

theorem scanAll_hull (before after : RGBA) (h : SameLayout before after)
    (hfit : after.Rect.LoopsFit) :
    ∃ s, scanAll before after = some s ∧ Hull before after s := by
  refine ⟨_, scanAll_eq before after h hfit, ?_⟩
  have hmem : ∀ p : Int × Int, p ∈ samplePoints after.Rect ∧ diffTest before after p = true ↔
      Sampled after.Rect p.1 p.2 ∧ RGBDiffAt before after p.1 p.2 := by
    intro p
    simp [mem_samplePoints, diffTest]
  have hch := foldl_flag_spec (diffTest before after) (samplePoints after.Rect)
    (scanInit after).changed
  rw [← markIf_changed (diffTest before after) (samplePoints after.Rect) (scanInit after)] at hch
  obtain ⟨a1, a2, a3⟩ := foldl_min_spec (fun p : Int × Int => p.1) (diffTest before after)
    (samplePoints after.Rect) (scanInit after).minX
  obtain ⟨b1, b2, b3⟩ := foldl_min_spec (fun p : Int × Int => p.2) (diffTest before after)
    (samplePoints after.Rect) (scanInit after).minY
  obtain ⟨c1, c2, c3⟩ := foldl_max_spec (fun p : Int × Int => p.1) (diffTest before after)
    (samplePoints after.Rect) (scanInit after).maxX
  obtain ⟨d1, d2, d3⟩ := foldl_max_spec (fun p : Int × Int => p.2) (diffTest before after)
    (samplePoints after.Rect) (scanInit after).maxY
  rw [← markIf_minX] at a1 a2 a3
  rw [← markIf_minY] at b1 b2 b3
  rw [← markIf_maxX] at c1 c2 c3
  rw [← markIf_maxY] at d1 d2 d3
  generalize (samplePoints after.Rect).foldl (markIf (diffTest before after)) (scanInit after)
    = s at *
  have hex : s.changed = true ↔ ∃ x y, Sampled after.Rect x y ∧ RGBDiffAt before after x y := by
    rw [hch]
    constructor
    · rintro (h0 | ⟨p, hp, hD⟩)
      · simp [scanInit] at h0
      · exact ⟨p.1, p.2, (hmem p).1 ⟨hp, hD⟩⟩
    · rintro ⟨x, y, hs, hD⟩
      exact Or.inr ⟨(x, y), ((hmem (x, y)).2 ⟨hs, hD⟩).1, ((hmem (x, y)).2 ⟨hs, hD⟩).2⟩
  have hA : ∀ x y, Sampled after.Rect x y → RGBDiffAt before after x y → s.minX ≤ x :=
    fun x y hs hD => a2 (x, y) ((hmem (x, y)).2 ⟨hs, hD⟩).1 ((hmem (x, y)).2 ⟨hs, hD⟩).2
  have hB : ∀ x y, Sampled after.Rect x y → RGBDiffAt before after x y → s.minY ≤ y :=
    fun x y hs hD => b2 (x, y) ((hmem (x, y)).2 ⟨hs, hD⟩).1 ((hmem (x, y)).2 ⟨hs, hD⟩).2
  refine ⟨hex, hA, hB, ?_, ?_, ?_, ?_, ?_, ?_, ?_, ?_⟩
  · exact fun x y hs hD => c2 (x, y) ((hmem (x, y)).2 ⟨hs, hD⟩).1 ((hmem (x, y)).2 ⟨hs, hD⟩).2
  · exact fun x y hs hD => d2 (x, y) ((hmem (x, y)).2 ⟨hs, hD⟩).1 ((hmem (x, y)).2 ⟨hs, hD⟩).2
  · intro hc
    rcases a3 with a3 | ⟨p, hp, hD, a3⟩
    · obtain ⟨x, y, hs, hD⟩ := hex.1 hc
      have := hA x y hs hD
      have := hs.1.2.1
      simp only [scanInit, RGBA.Bounds] at a3
      omega
    · have := (hmem p).1 ⟨hp, hD⟩
      exact ⟨p.2, by rw [a3]; exact this.1, by rw [a3]; exact this.2⟩
  · intro hc
    rcases b3 with b3 | ⟨p, hp, hD, b3⟩
    · obtain ⟨x, y, hs, hD⟩ := hex.1 hc
      have := hB x y hs hD
      have := hs.2.2.1
      simp only [scanInit, RGBA.Bounds] at b3
      omega
    · have := (hmem p).1 ⟨hp, hD⟩
      exact ⟨p.1, by rw [b3]; exact this.1, by rw [b3]; exact this.2⟩
  · simpa [scanInit] using c1
  · simpa [scanInit] using d1
  · rcases c3 with c3 | ⟨p, hp, hD, c3⟩
    · exact Or.inl (by simpa [scanInit] using c3)
    · have := (hmem p).1 ⟨hp, hD⟩
      exact Or.inr ⟨p.2, by rw [c3]; exact this.1, by rw [c3]; exact this.2⟩
  · rcases d3 with d3 | ⟨p, hp, hD, d3⟩
    · exact Or.inl (by simpa [scanInit] using d3)
    · have := (hmem p).1 ⟨hp, hD⟩
      exact Or.inr ⟨p.1, by rw [d3]; exact this.1, by rw [d3]; exact this.2⟩


theorem intersect_eq (r s : Rectangle) :
    r.Intersect s =
      if max r.Min.X s.Min.X < min r.Max.X s.Max.X ∧ max r.Min.Y s.Min.Y < min r.Max.Y s.Max.Y
      then ⟨⟨max r.Min.X s.Min.X, max r.Min.Y s.Min.Y⟩, ⟨min r.Max.X s.Max.X, min r.Max.Y s.Max.Y⟩⟩
      else ZR := by
  obtain ⟨⟨a, b⟩, ⟨c, d⟩⟩ := r
  obtain ⟨⟨e, f⟩, ⟨g, k⟩⟩ := s
  have m1 : (if a < e then e else a) = max a e := by
    rcases le_total a e with h | h
    · rw [max_eq_right h]; split_ifs <;> omega
    · rw [max_eq_left h]; split_ifs <;> omega
  have m2 : (if b < f then f else b) = max b f := by
    rcases le_total b f with h | h
    · rw [max_eq_right h]; split_ifs <;> omega
    · rw [max_eq_left h]; split_ifs <;> omega
  have m3 : (if c > g then g else c) = min c g := by
    rcases le_total c g with h | h
    · rw [min_eq_left h]; split_ifs <;> omega
    · rw [min_eq_right h]; split_ifs <;> omega
  have m4 : (if d > k then k else d) = min d k := by
    rcases le_total d k with h | h
    · rw [min_eq_left h]; split_ifs <;> omega
    · rw [min_eq_right h]; split_ifs <;> omega
  simp only [Rectangle.Intersect, Rectangle.Empty, m1, m2, m3, m4, ge_iff_le,
    Bool.or_eq_true, decide_eq_true_eq]
  by_cases hx : max a e < min c g <;> by_cases hy : max b f < min d k
  · rw [if_neg (by omega), if_pos ⟨hx, hy⟩]
  · rw [if_pos (by omega), if_neg (by tauto)]
  · rw [if_pos (by omega), if_neg (by tauto)]
  · rw [if_pos (by omega), if_neg (by tauto)]

theorem intersect_within (r s : Rectangle) (h : (r.Intersect s).Empty = false) :
    (r.Intersect s).Within s := by
  rw [intersect_eq] at h ⊢
  split_ifs at h ⊢ with hne
  · simp only [Rectangle.Within]
    refine ⟨le_max_right _ _, le_max_right _ _, min_le_right _ _, min_le_right _ _⟩
  · simp [ZR, Rectangle.Empty] at h

theorem GetDiffBounds_of_scan (before after : RGBA) (s : Scan)
    (h : scanAll before after = some s) :
    GetDiffBounds before after =
      some (if s.changed = true then
        (Rect (wrap64 (s.minX - 20)) (wrap64 (s.minY - 20)) (wrap64 (s.maxX + 20))
          (wrap64 (s.maxY + 20))).Canon.Intersect after.Bounds
      else ZR) := by
  unfold GetDiffBounds
  rw [h]
  cases hc : s.changed <;> simp [hc]

theorem loopsFit_of_away (r : Rectangle) (h : r.AwayFromLimits) : r.LoopsFit := by
  obtain ⟨⟨a, b⟩, ⟨c, d⟩⟩ := h
  exact ⟨⟨by omega, by omega⟩, ⟨by omega, by omega⟩⟩

theorem rect_canon_of_le (x0 y0 x1 y1 : Int) (hx : x0 ≤ x1) (hy : y0 ≤ y1) :
    (Rect x0 y0 x1 y1).Canon = ⟨⟨x0, y0⟩, ⟨x1, y1⟩⟩ := by
  have hx' : ¬ x0 > x1 := by omega
  have hy' : ¬ y0 > y1 := by omega
  have hx2 : ¬ x1 < x0 := by omega
  have hy2 : ¬ y1 < y0 := by omega
  simp [Rect, Rectangle.Canon, hx', hy', hx2, hy2]

theorem GetDiffBounds_unchanged (before after : RGBA) (h : SameLayout before after)
    (hfit : after.Rect.LoopsFit)
    (hno : ¬ ∃ x y, Sampled after.Rect x y ∧ RGBDiffAt before after x y) :
    GetDiffBounds before after = some ZR := by
  obtain ⟨s, hs, hull⟩ := scanAll_hull before after h hfit
  rw [GetDiffBounds_of_scan before after s hs]
  have hc : ¬ s.changed = true := fun hc => hno (hull.changed_iff.1 hc)
  simp [hc]

theorem GetDiffBounds_changed (before after : RGBA) (h : SameLayout before after)
    (hfar : after.Rect.AwayFromLimits)
    (hex : ∃ x y, Sampled after.Rect x y ∧ RGBDiffAt before after x y) :
    ∃ s, Hull before after s ∧ s.changed = true ∧ s.minX ≤ s.maxX ∧ s.minY ≤ s.maxY ∧
      GetDiffBounds before after =
        some ((⟨⟨s.minX - 20, s.minY - 20⟩, ⟨s.maxX + 20, s.maxY + 20⟩⟩ : Rectangle).Intersect
          after.Bounds) := by
  obtain ⟨s, hs, hull⟩ := scanAll_hull before after h (loopsFit_of_away _ hfar)
  have hc : s.changed = true := hull.changed_iff.2 hex
  obtain ⟨x, y, hsam, hD⟩ := hex
  have h1 := hull.minX_le x y hsam hD
  have h2 := hull.le_maxX x y hsam hD
  have h3 := hull.minY_le x y hsam hD
  have h4 := hull.le_maxY x y hsam hD
  obtain ⟨⟨f1, f2⟩, ⟨f3, f4⟩⟩ := hfar
  obtain ⟨ym, ⟨⟨a1, a2, -⟩, -⟩, -⟩ := hull.minX_mem hc
  obtain ⟨xm, ⟨-, ⟨b1, b2, -⟩⟩, -⟩ := hull.minY_mem hc
  have c0 := hull.maxX_nonneg
  have d0 := hull.maxY_nonneg
  have c1 : s.maxX ≤ 9223372036854775787 := by
    rcases hull.maxX_mem with hz | ⟨yy, ⟨⟨-, c2, -⟩, -⟩, -⟩ <;> omega
  have d1 : s.maxY ≤ 9223372036854775787 := by
    rcases hull.maxY_mem with hz | ⟨xx, ⟨-, ⟨-, d2, -⟩⟩, -⟩ <;> omega
  refine ⟨s, hull, hc, by omega, by omega, ?_⟩
  rw [GetDiffBounds_of_scan before after s hs, if_pos hc,
    wrap64_of_range (s.minX - 20) (by omega) (by omega),
    wrap64_of_range (s.minY - 20) (by omega) (by omega),
    wrap64_of_range (s.maxX + 20) (by omega) (by omega),
    wrap64_of_range (s.maxY + 20) (by omega) (by omega),
    rect_canon_of_le _ _ _ _ (by omega) (by omega)]

theorem pixAt_replicate (n : Nat) (v : Byte) (stride : Int) (r : Rectangle) (k : Nat)
    (h : k < n) :
    ({ Pix := List.replicate n v, Stride := stride, Rect := r } : RGBA).pixAt (k : Int)
      = some v := by
  simp [RGBA.pixAt, List.getElem?_replicate, h]

theorem pixAt_map_range (n : Nat) (f : Nat → Byte) (stride : Int) (r : Rectangle) (k : Nat)
    (h : k < n) :
    ({ Pix := (List.range n).map f, Stride := stride, Rect := r } : RGBA).pixAt (k : Int)
      = some (f k) := by
  simp [RGBA.pixAt, List.getElem?_range, h]

theorem blank200_pixAt (n : Nat) (h : n < 160000) : blank200.pixAt (n : Int) = some 0 :=
  pixAt_replicate 160000 0 _ _ n h

theorem block200_pixAt (n : Nat) (h : n < 160000) :
    block200.pixAt (n : Int) = some
      (if 100 ≤ n / 800 ∧ n / 800 ≤ 103 ∧ 100 ≤ n % 800 / 4 ∧ n % 800 / 4 ≤ 103
        then 255 else 0) :=
  pixAt_map_range 160000 _ _ _ n h

theorem blank200_length : blank200.Pix.length = 160000 :=
  List.length_replicate _ _

theorem block200_length : block200.Pix.length = 160000 := by
  dsimp only [block200]
  rw [List.length_map, List.length_range]

theorem block200_layout : SameLayout blank200 block200 := by
  refine ⟨rfl, rfl, ⟨?_, Or.inr ⟨?_, ?_⟩⟩, ⟨?_, Or.inr ⟨?_, ?_⟩⟩⟩
  · rw [blank200_length]; decide
  · decide
  · rw [blank200_length]; decide
  · rw [block200_length]; decide
  · decide
  · rw [block200_length]; decide

theorem block200_diff (x y : Int) (h : block200.Rect.Contains x y) :
    RGBDiffAt blank200 block200 x y ↔ 100 ≤ x ∧ x ≤ 103 ∧ 100 ≤ y ∧ y ≤ 103 := by
  have h : (0 : Int) ≤ x ∧ x < 200 ∧ (0 : Int) ≤ y ∧ y < 200 := h
  obtain ⟨a, rfl⟩ : ∃ a : Nat, x = a := ⟨x.toNat, by omega⟩
  obtain ⟨b, rfl⟩ : ∃ b : Nat, y = b := ⟨y.toNat, by omega⟩
  have ha : a < 200 := by omega
  have hb : b < 200 := by omega
  have e0 : block200.PixOffset a b = ((800 * b + 4 * a : Nat) : Int) := by
    show wrap64 (((b : Int) - 0) * 800 + ((a : Int) - 0) * 4) = _
    rw [wrap64_of_range _ (by omega) (by omega)]
    push_cast; ring
  have e0' : blank200.PixOffset a b = ((800 * b + 4 * a : Nat) : Int) := by
    show wrap64 (((b : Int) - 0) * 800 + ((a : Int) - 0) * 4) = _
    rw [wrap64_of_range _ (by omega) (by omega)]
    push_cast; ring
  have e1 : ((800 * b + 4 * a : Nat) : Int) + 1 = ((800 * b + 4 * a + 1 : Nat) : Int) := by
    push_cast; ring
  have e2 : ((800 * b + 4 * a : Nat) : Int) + 2 = ((800 * b + 4 * a + 2 : Nat) : Int) := by
    push_cast; ring
  have d0 : (800 * b + 4 * a) / 800 = b ∧ (800 * b + 4 * a) % 800 / 4 = a := by omega
  have d1 : (800 * b + 4 * a + 1) / 800 = b ∧ (800 * b + 4 * a + 1) % 800 / 4 = a := by omega
  have d2 : (800 * b + 4 * a + 2) / 800 = b ∧ (800 * b + 4 * a + 2) % 800 / 4 = a := by omega
  simp only [RGBDiffAt, e0, e0', e1, e2]
  rw [block200_pixAt _ (by omega), block200_pixAt _ (by omega), block200_pixAt _ (by omega),
    blank200_pixAt _ (by omega), blank200_pixAt _ (by omega), blank200_pixAt _ (by omega),
    d0.1, d0.2, d1.1, d1.2, d2.1, d2.2]
  by_cases hblock : 100 ≤ b ∧ b ≤ 103 ∧ 100 ≤ a ∧ a ≤ 103
  · simp only [if_pos hblock]
    constructor
    · intro _; omega
    · intro _; left; decide
  · simp only [if_neg hblock]
    constructor
    · intro h'; simp at h'
    · intro h'; exact absurd (by omega) hblock

theorem away_of_origin (p : RGBA) (hw : p.WellFormed) (hX : p.Rect.Min.X = 0)
    (hY : p.Rect.Min.Y = 0) (hx : 0 < p.Rect.Max.X) (hy : 0 < p.Rect.Max.Y) :
    p.Rect.AwayFromLimits := by
  obtain ⟨hlen, hw⟩ := hw
  rcases hw with he | ⟨hs, hl⟩
  · simp [Rectangle.Empty] at he
    omega
  · simp only [Rectangle.Dx, Rectangle.Dy, hX, hY, sub_zero] at hs hl
    have h1 : (p.Rect.Max.Y - 1) * 4 ≤ (p.Rect.Max.Y - 1) * p.Stride :=
      mul_le_mul_of_nonneg_left (by omega) (by omega)
    have h2 : 0 ≤ (p.Rect.Max.Y - 1) * p.Stride := mul_nonneg (by omega) (by omega)
    exact ⟨⟨by omega, by omega⟩, ⟨by omega, by omega⟩⟩

theorem block_result (before after : RGBA) (h : SameLayout before after)
    (horigin : after.Rect.Min = ⟨0, 0⟩)
    (hbig : 124 ≤ after.Rect.Max.X ∧ 124 ≤ after.Rect.Max.Y)
    (hdiff : ∀ x y, after.Rect.Contains x y →
      (RGBDiffAt before after x y ↔ 100 ≤ x ∧ x ≤ 103 ∧ 100 ≤ y ∧ y ≤ 103)) :
    GetDiffBounds before after = some ⟨⟨80, 80⟩, ⟨120, 120⟩⟩ := by
  have hX : after.Rect.Min.X = 0 := by rw [horigin]
  have hY : after.Rect.Min.Y = 0 := by rw [horigin]
  have key : ∀ x y, Sampled after.Rect x y → RGBDiffAt before after x y → x = 100 ∧ y = 100 := by
    intro x y hs hD
    have hc : after.Rect.Contains x y := ⟨hs.1.1, hs.1.2.1, hs.2.1, hs.2.2.1⟩
    have hb := (hdiff x y hc).1 hD
    have h1 := hs.1.2.2
    have h2 := hs.2.2.2
    rw [hX] at h1
    rw [hY] at h2
    omega
  have hs0 : Sampled after.Rect 100 100 := by
    refine ⟨⟨?_, ?_, ?_⟩, ⟨?_, ?_, ?_⟩⟩ <;> omega
  have hd0 : RGBDiffAt before after 100 100 :=
    (hdiff 100 100 ⟨hs0.1.1, hs0.1.2.1, hs0.2.1, hs0.2.2.1⟩).2 (by omega)
  have hfar : after.Rect.AwayFromLimits :=
    away_of_origin after h.2.2.2 hX hY (by omega) (by omega)
  obtain ⟨s, hull, hc, -, -, hres⟩ :=
    GetDiffBounds_changed before after h hfar ⟨100, 100, hs0, hd0⟩
  obtain ⟨y1, p1, q1⟩ := hull.minX_mem hc
  obtain ⟨x2, p2, q2⟩ := hull.minY_mem hc
  have e1 := (key _ _ p1 q1).1
  have e2 := (key _ _ p2 q2).2
  have g3 := hull.le_maxX 100 100 hs0 hd0
  have g4 := hull.le_maxY 100 100 hs0 hd0
  have e3 : s.maxX = 100 := by
    rcases hull.maxX_mem with h0 | ⟨y, p, q⟩
    · omega
    · exact (key _ _ p q).1
  have e4 : s.maxY = 100 := by
    rcases hull.maxY_mem with h0 | ⟨x, p, q⟩
    · omega
    · exact (key _ _ p q).2
  rw [hres, e1, e2, e3, e4, intersect_eq]
  simp only [RGBA.Bounds, hX, hY]
  have m1 : max (100 - 20 : Int) 0 = 80 := by decide
  have m2 : min (100 + 20 : Int) after.Rect.Max.X = 120 := by
    rw [min_eq_left (by omega)]; rfl
  have m3 : min (100 + 20 : Int) after.Rect.Max.Y = 120 := by
    rw [min_eq_left (by omega)]; rfl
  rw [m1, m2, m3]
  simp


theorem foldl_append_filter {α : Type} (p : α → Bool) (l acc : List α) :
    l.foldl (fun r c => if p c = true then r ++ [c] else r) acc = acc ++ l.filter p := by
  induction l generalizing acc with
  | nil => simp
  | cons a t ih =>
    simp only [List.foldl_cons, ih, List.filter_cons]
    by_cases hp : p a = true <;> simp [hp]

theorem tryExtensions_none (h : Host) (dir name : String) (exts : List String) :
    tryExtensions h dir name exts = none ↔
      ∀ ext ∈ exts, h.stat (h.join [dir, name ++ ext]) = false := by
  induction exts with
  | nil => simp [tryExtensions]
  | cons e t ih =>
    simp only [tryExtensions, List.mem_cons, forall_eq_or_imp]
    by_cases he : h.stat (h.join [dir, name ++ e]) = true
    · simp [he]
    · simp [he, ih]

theorem tryExtensions_first (h : Host) (dir name : String) (pre post : List String)
    (ext : String) (hpre : ∀ e ∈ pre, h.stat (h.join [dir, name ++ e]) = false)
    (hext : h.stat (h.join [dir, name ++ ext]) = true) :
    tryExtensions h dir name (pre ++ ext :: post) = some (h.join [dir, name ++ ext]) := by
  induction pre with
  | nil => simp [tryExtensions, hext]
  | cons e t ih =>
    have he : h.stat (h.join [dir, name ++ e]) = false := hpre e (List.mem_cons_self _ _)
    simp only [List.cons_append, tryExtensions, he, Bool.false_eq_true, if_false]
    exact ih (fun e' he' => hpre e' (List.mem_cons_of_mem _ he'))

theorem tryExtensions_some (h : Host) (dir name : String) (exts : List String) (p : String)
    (hp : tryExtensions h dir name exts = some p) :
    ∃ ext ∈ exts, p = h.join [dir, name ++ ext] ∧ h.stat p = true := by
  induction exts with
  | nil => simp [tryExtensions] at hp
  | cons e t ih =>
    simp only [tryExtensions] at hp
    by_cases he : h.stat (h.join [dir, name ++ e]) = true
    · rw [if_pos he] at hp
      cases hp
      exact ⟨e, List.mem_cons_self _ _, rfl, he⟩
    · rw [if_neg he] at hp
      obtain ⟨ext, hmem, h1, h2⟩ := ih hp
      exact ⟨ext, List.mem_cons_of_mem _ hmem, h1, h2⟩

theorem resolveInDir_none (h : Host) (dir name : String) :
    resolveInDir h dir name = none ↔
      h.stat (h.join [dir, name]) = false ∧
      (∀ ext ∈ extensions, h.stat (h.join [dir, name ++ ext]) = false) ∧
      h.glob (h.join [dir, name ++ ".*"]) = [] := by
  unfold resolveInDir
  by_cases he : h.stat (h.join [dir, name]) = true
  · simp [he]
  · rw [if_neg he]
    cases ht : tryExtensions h dir name extensions with
    | some p =>
      have hne : ¬ ∀ ext ∈ extensions, h.stat (h.join [dir, name ++ ext]) = false := by
        rw [← tryExtensions_none, ht]; simp
      simp [hne]
    | none =>
      have hall := (tryExtensions_none h dir name extensions).1 ht
      cases hg : h.glob (h.join [dir, name ++ ".*"]) with
      | nil => simpa [he] using hall
      | cons m ms => simp

theorem resolveInDir_none_iff_not_hit (h : Host) (dir name : String) :
    resolveInDir h dir name = none ↔ ¬ Hit h dir name := by
  rw [resolveInDir_none]
  unfold Hit
  constructor
  · rintro ⟨h1, h2, h3⟩ (h' | ⟨ext, he, h'⟩ | h')
    · rw [h1] at h'; cases h'
    · rw [h2 ext he] at h'; cases h'
    · exact h' h3
  · intro hn
    refine ⟨?_, ?_, ?_⟩
    · cases hs : h.stat (h.join [dir, name]) with
      | false => rfl
      | true => exact absurd (Or.inl hs) hn
    · intro ext he
      cases hs : h.stat (h.join [dir, name ++ ext]) with
      | false => rfl
      | true => exact absurd (Or.inr (Or.inl ⟨ext, he, hs⟩)) hn
    · by_contra hg
      exact hn (Or.inr (Or.inr hg))

theorem resolveInDir_some (h : Host) (dir name p : String)
    (hp : resolveInDir h dir name = some p) :
    Candidate h dir name p ∧ (h.stat p = true ∨ p ∈ h.glob (h.join [dir, name ++ ".*"])) := by
  unfold resolveInDir at hp
  by_cases he : h.stat (h.join [dir, name]) = true
  · rw [if_pos he] at hp
    cases hp
    exact ⟨Or.inl rfl, Or.inl he⟩
  · rw [if_neg he] at hp
    cases ht : tryExtensions h dir name extensions with
    | some q =>
      rw [ht] at hp
      cases hp
      obtain ⟨ext, hmem, h1, h2⟩ := tryExtensions_some h dir name extensions _ ht
      exact ⟨Or.inr (Or.inl ⟨ext, hmem, h1⟩), Or.inl h2⟩
    | none =>
      rw [ht] at hp
      cases hg : h.glob (h.join [dir, name ++ ".*"]) with
      | nil => rw [hg] at hp; cases hp
      | cons m ms =>
        rw [hg] at hp
        cases hp
        have hm : p ∈ h.glob (h.join [dir, name ++ ".*"]) := by
          rw [hg]; exact List.mem_cons_self _ _
        exact ⟨Or.inr (Or.inr hm), Or.inr (List.mem_cons_self _ _)⟩

theorem resolveIconPathIn_skip (h : Host) (name : String) (pre rest : List String)
    (hpre : ∀ d ∈ pre, resolveInDir h d name = none) :
    resolveIconPathIn h name (pre ++ rest) = resolveIconPathIn h name rest := by
  induction pre with
  | nil => rfl
  | cons d t ih =>
    simp only [List.cons_append, resolveIconPathIn, hpre d (List.mem_cons_self _ _)]
    exact ih (fun d' hd' => hpre d' (List.mem_cons_of_mem _ hd'))

theorem resolveIconPathIn_empty_iff (h : Host) (h0 : h.stat "" = false)
    (hg : ∀ pat, "" ∉ h.glob pat) (name : String) (dirs : List String) :
    resolveIconPathIn h name dirs = "" ↔ ∀ d ∈ dirs, resolveInDir h d name = none := by
  induction dirs with
  | nil => simp [resolveIconPathIn]
  | cons d t ih =>
    simp only [resolveIconPathIn, List.mem_cons, forall_eq_or_imp]
    cases hr : resolveInDir h d name with
    | none => simpa using ih
    | some p =>
      have hne : p ≠ "" := by
        rintro rfl
        rcases (resolveInDir_some h d name _ hr).2 with hs | hm
        · rw [h0] at hs; cases hs
        · exact hg _ hm
      simp [hne]


theorem GetDiffBounds_exact (before after : RGBA) (h : SameLayout before after)
    (hfar : after.Rect.AwayFromLimits) (minX maxX minY maxY : Int) (h1 : IsMinX before after minX) (h2 : IsMaxX before after maxX)
    (h3 : IsMinY before after minY) (h4 : IsMaxY before after maxY) :
    GetDiffBounds before after =
      some ((⟨⟨minX - 20, minY - 20⟩, ⟨max 0 maxX + 20, max 0 maxY + 20⟩⟩ : Rectangle).Intersect
        after.Bounds) := by
  obtain ⟨y1, hs1, hd1⟩ := h1.1
  obtain ⟨s, hull, hc, -, -, hres⟩ :=
    GetDiffBounds_changed before after h hfar ⟨minX, y1, hs1, hd1⟩
  have e1 : s.minX = minX := by
    obtain ⟨y, p, q⟩ := hull.minX_mem hc
    exact le_antisymm (hull.minX_le _ _ hs1 hd1) (h1.2 _ _ p q)
  have e2 : s.minY = minY := by
    obtain ⟨x, p, q⟩ := hull.minY_mem hc
    obtain ⟨x3, hs3, hd3⟩ := h3.1
    exact le_antisymm (hull.minY_le _ _ hs3 hd3) (h3.2 _ _ p q)
  have e3 : s.maxX = max 0 maxX := by
    obtain ⟨y2, hs2, hd2⟩ := h2.1
    have hge := hull.le_maxX _ _ hs2 hd2
    have h0 := hull.maxX_nonneg
    rcases hull.maxX_mem with hz | ⟨y, p, q⟩
    · rw [hz] at hge ⊢
      exact (max_eq_left hge).symm
    · have hle := h2.2 _ _ p q
      rw [max_eq_right (by omega)]
      omega
  have e4 : s.maxY = max 0 maxY := by
    obtain ⟨x2, hs2, hd2⟩ := h4.1
    have hge := hull.le_maxY _ _ hs2 hd2
    have h0 := hull.maxY_nonneg
    rcases hull.maxY_mem with hz | ⟨x, p, q⟩
    · rw [hz] at hge ⊢
      exact (max_eq_left hge).symm
    · have hle := h4.2 _ _ p q
      rw [max_eq_right (by omega)]
      omega
  rw [hres, e1, e2, e3, e4]

theorem GetDiffBounds_exact_of_nonneg (before after : RGBA) (h : SameLayout before after)
    (hfar : after.Rect.AwayFromLimits) (minX maxX minY maxY : Int) (h1 : IsMinX before after minX) (h2 : IsMaxX before after maxX)
    (h3 : IsMinY before after minY) (h4 : IsMaxY before after maxY)
    (hx : 0 ≤ maxX) (hy : 0 ≤ maxY) :
    GetDiffBounds before after =
      some ((⟨⟨minX - 20, minY - 20⟩, ⟨maxX + 20, maxY + 20⟩⟩ : Rectangle).Intersect
        after.Bounds) := by
  rw [GetDiffBounds_exact before after h hfar minX maxX minY maxY h1 h2 h3 h4,
    max_eq_right hx, max_eq_right hy]

theorem pixAt_isSome_iff (p : RGBA) (i : Int) :
    (p.pixAt i).isSome = true ↔ 0 ≤ i ∧ i < p.Pix.length := by
  unfold RGBA.pixAt
  by_cases h0 : 0 ≤ i
  · rw [if_pos h0]
    by_cases h1 : i.toNat < p.Pix.length
    · rw [List.getElem?_eq_getElem h1]
      simp; omega
    · rw [List.getElem?_eq_none (by omega)]
      simp; omega
  · rw [if_neg h0]
    simp; omega

theorem pixAt_none_of_length_eq (a b : RGBA) (hl : a.Pix.length = b.Pix.length) (i : Int)
    (h : a.pixAt i = none) : b.pixAt i = none := by
  have ha := pixAt_isSome_iff a i
  have hb := pixAt_isSome_iff b i
  rw [h] at ha
  cases hbi : b.pixAt i with
  | none => rfl
  | some v =>
    rw [hbi] at hb
    have := hb.1 rfl
    rw [← hl] at this
    exact absurd (ha.2 this) (by simp)

theorem byteDiffers_comm (a b : RGBA) (hl : a.Pix.length = b.Pix.length) (i : Int) :
    byteDiffers a b i = byteDiffers b a i := by
  unfold byteDiffers
  cases ha : a.pixAt i with
  | none => simp [pixAt_none_of_length_eq a b hl i ha]
  | some x =>
    cases hb : b.pixAt i with
    | none => rfl
    | some y =>
      by_cases hxy : x = y
      · simp [hxy]
      · have hyx : ¬ y = x := fun h => hxy h.symm
        simp [hxy, hyx]

theorem rgbDiffers_comm (a b : RGBA) (hl : a.Pix.length = b.Pix.length) (off : Int) :
    rgbDiffers a b off = rgbDiffers b a off := by
  unfold rgbDiffers
  rw [byteDiffers_comm a b hl off, byteDiffers_comm a b hl (wrap64 (off + 1)),
    byteDiffers_comm a b hl (wrap64 (off + 2))]

theorem GetDiffBounds_comm (a b : RGBA) (hr : a.Rect = b.Rect) (hs : a.Stride = b.Stride)
    (hl : a.Pix.length = b.Pix.length) : GetDiffBounds a b = GetDiffBounds b a := by
  have hoff : ∀ x y, b.PixOffset x y = a.PixOffset x y := by
    intro x y; simp [RGBA.PixOffset, hr, hs]
  have hpix : scanPixel a b = scanPixel b a := by
    funext y s x
    unfold scanPixel
    rw [hoff, rgbDiffers_comm a b hl]
  have hrow : scanRow a b = scanRow b a := by
    funext s y
    unfold scanRow
    rw [hpix]
    simp [RGBA.Bounds, hr]
  have hall : scanAll a b = scanAll b a := by
    unfold scanAll scanInit
    rw [hrow]
    simp [RGBA.Bounds, hr]
  unfold GetDiffBounds
  rw [hall]
  simp [RGBA.Bounds, hr]


theorem scanAll_of_empty (before after : RGBA) (hfit : after.Rect.LoopsFit)
    (he : after.Rect.Empty = true) :
    scanAll before after = some (scanInit after) := by
  rw [scanAll_fits before after hfit]
  by_cases hx : after.Rect.Min.X < after.Rect.Max.X
  · have hy : ¬ after.Rect.Min.Y < after.Rect.Max.Y := by
      simp [Rectangle.Empty] at he
      omega
    simp [everyFourth_of_not_lt _ _ hy]
  · have hrow : ∀ s y, scanRow before after s y = some s := by
      intro s y
      simp [scanRow_fits before after hfit, everyFourth_of_not_lt _ _ hx]
    rw [foldlM_eq_foldl (scanRow before after) (fun s _ => s) _ (fun s y _ => hrow s y)]
    congr 1
    generalize everyFourth after.Rect.Min.Y after.Rect.Max.Y = l
    generalize scanInit after = s
    induction l generalizing s with
    | nil => rfl
    | cons a t ih => exact ih s

theorem GetDiffBounds_of_empty (before after : RGBA) (hfit : after.Rect.LoopsFit)
    (he : after.Rect.Empty = true) :
    GetDiffBounds before after = some ZR := by
  rw [GetDiffBounds_of_scan before after _ (scanAll_of_empty before after hfit he)]
  simp [scanInit]

theorem wellFormed_of_stride_length (p : RGBA) (hlen : p.Pix.length < 9223372036854775808)
    (hs : 4 * p.Rect.Dx ≤ p.Stride)
    (hl : p.Stride * p.Rect.Dy ≤ p.Pix.length) : p.WellFormed := by
  refine ⟨hlen, ?_⟩
  by_cases he : p.Rect.Empty = true
  · exact Or.inl he
  · right
    refine ⟨hs, ?_⟩
    simp [Rectangle.Empty] at he
    simp only [Rectangle.Dx, Rectangle.Dy] at hs hl ⊢
    have : (p.Rect.Max.Y - p.Rect.Min.Y - 1) * p.Stride + p.Stride
        = p.Stride * (p.Rect.Max.Y - p.Rect.Min.Y) := by ring
    omega

theorem GetDiffBounds_contains (before after : RGBA) (h : SameLayout before after)
    (hfar : after.Rect.AwayFromLimits) :
    ∃ r, GetDiffBounds before after = some r ∧
      (r.Empty = false ↔ ∃ x y, Sampled after.Rect x y ∧ RGBDiffAt before after x y) ∧
      (∀ x y, Sampled after.Rect x y → RGBDiffAt before after x y → r.Contains x y) := by
  by_cases hex : ∃ x y, Sampled after.Rect x y ∧ RGBDiffAt before after x y
  · obtain ⟨s, hull, -, -, -, hres⟩ := GetDiffBounds_changed before after h hfar hex
    refine ⟨_, hres, ?_⟩
    have hin : ∀ x y, Sampled after.Rect x y → RGBDiffAt before after x y →
        ((⟨⟨s.minX - 20, s.minY - 20⟩, ⟨s.maxX + 20, s.maxY + 20⟩⟩ : Rectangle).Intersect
          after.Bounds).Contains x y := by
      intro x y hs hd
      have a1 := hull.minX_le x y hs hd
      have a2 := hull.le_maxX x y hs hd
      have a3 := hull.minY_le x y hs hd
      have a4 := hull.le_maxY x y hs hd
      obtain ⟨⟨b1, b2, -⟩, ⟨b3, b4, -⟩⟩ := hs
      rw [intersect_eq]
      simp only [RGBA.Bounds]
      have c1 : max (s.minX - 20) after.Rect.Min.X ≤ x := max_le (by omega) b1
      have c2 : x < min (s.maxX + 20) after.Rect.Max.X := lt_min (by omega) b2
      have c3 : max (s.minY - 20) after.Rect.Min.Y ≤ y := max_le (by omega) b3
      have c4 : y < min (s.maxY + 20) after.Rect.Max.Y := lt_min (by omega) b4
      rw [if_pos ⟨lt_of_le_of_lt c1 c2, lt_of_le_of_lt c3 c4⟩]
      exact ⟨c1, c2, c3, c4⟩
    refine ⟨⟨fun _ => hex, fun _ => ?_⟩, hin⟩
    obtain ⟨x, y, hs, hd⟩ := hex
    obtain ⟨d1, d2, d3, d4⟩ := hin x y hs hd
    simp only [Rectangle.Empty, Bool.or_eq_false_iff, decide_eq_false_iff_not]
    constructor <;> omega
  · refine ⟨ZR, GetDiffBounds_unchanged before after h (loopsFit_of_away _ hfar) hex, ?_, ?_⟩
    · constructor
      · intro he; simp [ZR, Rectangle.Empty] at he
      · intro h'; exact absurd h' hex
    · intro x y hs hd
      exact absurd ⟨x, y, hs, hd⟩ hex


theorem foldlM_none {α β : Type} (f : β → α → Option β) (xs : List α) (a : α) (ha : a ∈ xs)
    (hf : ∀ b, f b a = none) (b : β) : xs.foldlM f b = none := by
  induction xs generalizing b with
  | nil => cases ha
  | cons x t ih =>
    simp only [List.foldlM]
    rcases List.mem_cons.1 ha with rfl | hmem
    · rw [hf b]; rfl
    · cases hx : f b x with
      | none => rfl
      | some b' => exact ih hmem b'

theorem GetDiffBounds_ignores_before_layout (before after : RGBA) :
    GetDiffBounds before after =
      GetDiffBounds { Pix := before.Pix, Stride := after.Stride, Rect := after.Rect } after :=
  rfl

theorem GetDiffBounds_none_of_short (before after : RGBA) (hw : after.WellFormed)
    (hfit : after.Rect.LoopsFit) (x y : Int) (hs : Sampled after.Rect x y)
    (hshort : (before.Pix.length : Int) ≤ after.PixOffset x y) :
    GetDiffBounds before after = none := by
  obtain ⟨⟨hx1, hx2, hx3⟩, ⟨hy1, hy2, hy3⟩⟩ := hs
  have hr := offset_in_range after hw x y ⟨hx1, hx2⟩ ⟨hy1, hy2⟩
  obtain ⟨a0, ha0⟩ := pixAt_eq_some after (after.PixOffset x y) (by omega) (by omega)
  have hb0 : before.pixAt (after.PixOffset x y) = none := by
    cases hb : before.pixAt (after.PixOffset x y) with
    | none => rfl
    | some v =>
      have := (pixAt_isSome_iff before (after.PixOffset x y)).1 (by rw [hb]; rfl)
      omega
  have hpix : ∀ s, scanPixel before after y s x = none := by
    intro s
    simp [scanPixel, rgbDiffers, byteDiffers, ha0, hb0, orElse]
  have hrow : ∀ s, scanRow before after s y = none := by
    intro s
    rw [scanRow_fits before after hfit]
    exact foldlM_none _ _ x ((mem_everyFourth _ _ _).2 ⟨hx1, hx2, hx3⟩) hpix s
  have hall : scanAll before after = none := by
    rw [scanAll_fits before after hfit]
    exact foldlM_none _ _ y ((mem_everyFourth _ _ _).2 ⟨hy1, hy2, hy3⟩) hrow _
  simp [GetDiffBounds, hall]

theorem GetDiffBounds_some_of_layout (before after : RGBA) (h : SameLayout before after)
    (hfit : after.Rect.LoopsFit) :
    ∃ r, GetDiffBounds before after = some r := by
  obtain ⟨s, hs, -⟩ := scanAll_hull before after h hfit
  exact ⟨_, GetDiffBounds_of_scan before after s hs⟩


theorem wrapInt32_of_range (z : Int) (h0 : -2147483648 ≤ z) (h1 : z < 2147483648) :
    wrapInt32 z = z := by
  unfold wrapInt32
  omega

theorem GetCoord_icons_eq (h : Host) (childrenArray : List (Option Element)) :
    GetCoord.icons h childrenArray =
      ((childrenArray.filterMap id).filter (fun e => decide (e.CurrentName ≠ ""))).map
        (fun e => iconOf h e.CurrentName e.CurrentBoundingRectangle) := by
  have key : ∀ (l : List (Option Element)) (acc : List IconCoord),
      l.foldl (fun icons child =>
        match child with
        | none => icons
        | some elem =>
          if elem.CurrentName = "" then icons
          else icons ++ [iconOf h elem.CurrentName elem.CurrentBoundingRectangle]) acc =
      acc ++ ((l.filterMap id).filter (fun e => decide (e.CurrentName ≠ ""))).map
          (fun e => iconOf h e.CurrentName e.CurrentBoundingRectangle) := by
    intro l
    induction l with
    | nil => intro acc; simp
    | cons a t ih =>
      intro acc
      rw [List.foldl_cons, ih]
      cases a with
      | none => simp
      | some e => by_cases hn : e.CurrentName = "" <;> simp [hn]
  unfold GetCoord.icons
  rw [key]; simp

theorem getViaTraversal_icons_eq (h : Host) (listViewElem : Element) :
    getViaTraversal.icons h listViewElem =
      (listViewElem.Child.filter (fun e => decide (e.CurrentName ≠ ""))).map
        (fun e => iconOf h e.CurrentName e.CurrentBoundingRectangle) := by
  have key : ∀ (l : List Element) (acc : List IconCoord),
      l.foldl (fun icons child =>
        if child.CurrentName = "" then icons
        else icons ++ [iconOf h child.CurrentName child.CurrentBoundingRectangle]) acc =
      acc ++ (l.filter (fun e => decide (e.CurrentName ≠ ""))).map
          (fun e => iconOf h e.CurrentName e.CurrentBoundingRectangle) := by
    intro l
    induction l with
    | nil => intro acc; simp
    | cons e t ih =>
      intro acc
      rw [List.foldl_cons, ih]
      by_cases hn : e.CurrentName = "" <;> simp [hn]
  unfold getViaTraversal.icons
  rw [key]; simp

theorem iconOf_size (h : Host) (name : String) (rect : Option TagRect) :
    (∀ r, rect = some r → r.Ordered →
      (iconOf h name rect).Width = r.Right - r.Left ∧
        (iconOf h name rect).Height = r.Bottom - r.Top ∧
        0 ≤ (iconOf h name rect).Width ∧ 0 ≤ (iconOf h name rect).Height) ∧
    (rect = none →
      (iconOf h name rect).X = 0 ∧ (iconOf h name rect).Y = 0 ∧
        (iconOf h name rect).Width = 0 ∧ (iconOf h name rect).Height = 0) := by
  constructor
  · rintro r rfl ⟨⟨a1, a2⟩, ⟨b1, b2⟩⟩
    simp only [iconOf]
    rw [wrapInt32_of_range _ (by omega) a2, wrapInt32_of_range _ (by omega) b2]
    exact ⟨rfl, rfl, a1, b1⟩
  · rintro rfl
    simp [iconOf]

theorem GetCoord_icons_append (h : Host) (l1 l2 : List (Option Element)) :
    GetCoord.icons h (l1 ++ l2) = GetCoord.icons h l1 ++ GetCoord.icons h l2 := by
  simp [GetCoord_icons_eq]

theorem getViaTraversal_icons_append (h : Host) (n c : String) (r : Option TagRect)
    (l1 l2 : List Element) :
    getViaTraversal.icons h ⟨n, c, r, l1 ++ l2⟩ =
      getViaTraversal.icons h ⟨n, c, r, l1⟩ ++ getViaTraversal.icons h ⟨n, c, r, l2⟩ := by
  simp [getViaTraversal_icons_eq]

theorem find?_of_split {α : Type} (p : α → Bool) (pre post : List α) (e : α)
    (hpre : ∀ x ∈ pre, p x = false) (he : p e = true) :
    (pre ++ e :: post).find? p = some e := by
  induction pre with
  | nil => simp [he]
  | cons x t ih =>
    have hx : p x = false := hpre x (List.mem_cons_self _ _)
    simp only [List.cons_append, List.find?_cons, hx]
    exact ih (fun y hy => hpre y (List.mem_cons_of_mem _ hy))

theorem find?_none_of_all {α : Type} (p : α → Bool) (l : List α)
    (h : ∀ x ∈ l, p x = false) : l.find? p = none := by
  rw [List.find?_eq_none]
  intro x hx
  simp [h x hx]

theorem resolveIconPathIn_ne_empty (h : Host) (name : String) (dirs : List String)
    (hne : resolveIconPathIn h name dirs ≠ "") :
    ∃ dir ∈ dirs, resolveInDir h dir name = some (resolveIconPathIn h name dirs) := by
  induction dirs with
  | nil => exact absurd rfl hne
  | cons d t ih =>
    cases hr : resolveInDir h d name with
    | some p =>
      refine ⟨d, List.mem_cons_self _ _, ?_⟩
      simp [resolveIconPathIn, hr]
    | none =>
      have hstep : resolveIconPathIn h name (d :: t) = resolveIconPathIn h name t := by
        simp [resolveIconPathIn, hr]
      rw [hstep] at hne ⊢
      obtain ⟨dir, hmem, hdir⟩ := ih hne
      exact ⟨dir, List.mem_cons_of_mem _ hmem, hdir⟩

/-! ## The claims -/

/-- Claim C1 fails as stated: the 2 x 1 buffer `edge2`, whose right edge is the largest
`int`, compared with itself gives no rectangle. After the sample (2^63 - 3, 0) the
increment `x += 4` wraps to -2^63 + 1, which is below `Max.X`; the loop goes on, the
offset of that `x` is 16, and `Pix[16]` is out of range for the 8 bytes. -/
theorem C1_wrapping_column_counterexample :
    SameLayout edge2 edge2 ∧ edge2.Rect.Dx = 2 ∧ edge2.Rect.Dy = 1 ∧
    wrap64 (edge2.Rect.Min.X + 4) = -9223372036854775807 ∧
    edge2.PixOffset (-9223372036854775807) 0 = 16 ∧
    scanPixel edge2 edge2 0 (scanInit edge2) (-9223372036854775807) = none ∧
    GetDiffBounds edge2 edge2 = none := by
  decide

/-- Claim C1, amended: two buffers of identical bounds, stride and contents, each holding
all its pixels, give the empty-rectangle sentinel `image.ZR`, for every size and origin
with `Max.X` and `Max.Y` at most 2^63 - 4, so that no increment of the loops wraps. -/
theorem C1_identical_buffers_yield_ZR (before after : RGBA) (h : SameLayout before after)
    (hfit : after.Rect.LoopsFit) (hpix : before.Pix = after.Pix) :
    GetDiffBounds before after = some ZR := by
  apply GetDiffBounds_unchanged before after h hfit
  rintro ⟨x, y, -, hD⟩
  obtain ⟨hr, hs, -, -⟩ := h
  have hoff : before.PixOffset x y = after.PixOffset x y := by
    simp [RGBA.PixOffset, hr, hs]
  simp [RGBDiffAt, hoff, RGBA.pixAt, hpix] at hD

/-- Witness of the amended C1 on a 5 x 3 buffer compared with itself. -/
theorem C1_identical_buffers_yield_ZR_witness :
    SameLayout grey5x3 grey5x3 ∧ grey5x3.Rect.LoopsFit ∧
    GetDiffBounds grey5x3 grey5x3 = some ZR :=
  ⟨by decide, by decide,
    C1_identical_buffers_yield_ZR grey5x3 grey5x3 (by decide) (by decide) rfl⟩

/-- Claim C2: whatever the two buffers hold and wherever their bounds lie, a non-empty
rectangle returned by `GetDiffBounds` lies within `after.Bounds()` on both axes; and for
buffers of the same bounds and layout, with `Max.X` and `Max.Y` at most 2^63 - 4, the call
does return a rectangle. -/
theorem C2_result_within_bounds (before after : RGBA) :
    (∀ r, GetDiffBounds before after = some r → r.Empty = false → r.Within after.Bounds) ∧
    (SameLayout before after → after.Rect.LoopsFit →
      ∃ r, GetDiffBounds before after = some r) := by
  constructor
  · intro r hr hne
    cases hs : scanAll before after with
    | none => simp [GetDiffBounds, hs] at hr
    | some s =>
      rw [GetDiffBounds_of_scan before after s hs] at hr
      cases hr
      split_ifs at hne ⊢
      · exact intersect_within _ _ hne
      · simp [ZR, Rectangle.Empty] at hne
  · intro h hfit
    obtain ⟨s, hs, -⟩ := scanAll_hull before after h hfit
    exact ⟨_, GetDiffBounds_of_scan before after s hs⟩

/-- Witness of C2: one changed sample at (2, 5) of a buffer with bounds (-2,5)-(4,7); the
padded rectangle (-18,-15)-(22,25) is cut down to the bounds on all four sides. -/
theorem C2_result_within_bounds_witness :
    GetDiffBounds dark6x2 dark6x2Lit = some ⟨⟨-2, 5⟩, ⟨4, 7⟩⟩ ∧
    (⟨⟨-2, 5⟩, ⟨4, 7⟩⟩ : Rectangle).Within dark6x2Lit.Bounds :=
  ⟨by decide,
    (C2_result_within_bounds dark6x2 dark6x2Lit).1 ⟨⟨-2, 5⟩, ⟨4, 7⟩⟩ (by decide) (by decide)⟩

/-- Claim C4 at a buffer left of the origin: the only differing sample is (-24, -1), so the
true minima and maxima are -24 and -1 and the claimed rectangle is [-44, -4) x [-21, 19)
cut to the bounds, (-24,-1)-(-4,0); the code returns (-24,-1)-(0,0), because `maxX` and
`maxY` start at 0 and never go below it. -/
theorem C4_negative_origin_keeps_zero_max :
    SameLayout left24 left24Lit ∧
    IsMinX left24 left24Lit (-24) ∧ IsMaxX left24 left24Lit (-24) ∧
    IsMinY left24 left24Lit (-1) ∧ IsMaxY left24 left24Lit (-1) ∧
    GetDiffBounds left24 left24Lit = some ⟨⟨-24, -1⟩, ⟨0, 0⟩⟩ ∧
    (⟨⟨-24 - 20, -1 - 20⟩, ⟨-24 + 20, -1 + 20⟩⟩ : Rectangle).Intersect left24Lit.Bounds
      = ⟨⟨-24, -1⟩, ⟨-4, 0⟩⟩ := by
  have hall : ∀ p ∈ samplePoints left24Lit.Rect,
      RGBDiffAt left24 left24Lit p.1 p.2 → p = (-24, -1) := by decide
  have hs : Sampled left24Lit.Rect (-24) (-1) := by decide
  have hd : RGBDiffAt left24 left24Lit (-24) (-1) := by decide
  have honly : ∀ x y, Sampled left24Lit.Rect x y → RGBDiffAt left24 left24Lit x y →
      x = -24 ∧ y = -1 := by
    intro x y hsxy hdxy
    have := hall (x, y) ((mem_samplePoints _ _).2 hsxy) hdxy
    exact ⟨congrArg Prod.fst this, congrArg Prod.snd this⟩
  refine ⟨by decide, ⟨⟨-1, hs, hd⟩, ?_⟩, ⟨⟨-1, hs, hd⟩, ?_⟩, ⟨⟨-24, hs, hd⟩, ?_⟩,
    ⟨⟨-24, hs, hd⟩, ?_⟩, by decide, by decide⟩
  · intro x y p q; exact (honly x y p q).1.ge
  · intro x y p q; exact (honly x y p q).1.le
  · intro x y p q; exact (honly x y p q).2.ge
  · intro x y p q; exact (honly x y p q).2.le

/-- Claim C5: `GetNameBasedSearch(name)` is the list returned by `GetCoord` filtered by
exact equality of the `Name` field: records unchanged, order and duplicates kept; it is
empty exactly when no record has that name. -/
theorem C5_name_search_is_exact_filter (coord : List IconCoord) (name : String) :
    GetNameBasedSearch coord name = coord.filter (fun c => decide (c.Name = name)) ∧
    (GetNameBasedSearch coord name = [] ↔ ∀ c ∈ coord, c.Name ≠ name) := by
  have hEq : GetNameBasedSearch coord name = coord.filter (fun c => decide (c.Name = name)) := by
    unfold GetNameBasedSearch
    have := foldl_append_filter (fun c : IconCoord => decide (c.Name = name)) coord []
    simpa using this
  refine ⟨hEq, ?_⟩
  rw [hEq, List.filter_eq_nil_iff]
  simp

/-- Claim C6: both icon-building loops output one record per element with a non-empty
name, in enumeration order, built from that element; the output names are the input
names with the empty strings removed, and no output name is empty. -/
theorem C6_one_icon_per_named_element (h : Host) (childrenArray : List (Option Element))
    (listViewElem : Element) :
    GetCoord.icons h childrenArray =
        ((childrenArray.filterMap id).filter (fun e => decide (e.CurrentName ≠ ""))).map
          (fun e => iconOf h e.CurrentName e.CurrentBoundingRectangle) ∧
    getViaTraversal.icons h listViewElem =
        (listViewElem.Child.filter (fun e => decide (e.CurrentName ≠ ""))).map
          (fun e => iconOf h e.CurrentName e.CurrentBoundingRectangle) ∧
    (GetCoord.icons h childrenArray).map IconCoord.Name =
        ((childrenArray.filterMap id).map Element.CurrentName).filter
          (fun n => decide (n ≠ "")) ∧
    (getViaTraversal.icons h listViewElem).map IconCoord.Name =
        (listViewElem.Child.map Element.CurrentName).filter (fun n => decide (n ≠ "")) ∧
    (∀ c ∈ GetCoord.icons h childrenArray, c.Name ≠ "") ∧
    (∀ c ∈ getViaTraversal.icons h listViewElem, c.Name ≠ "") := by
  have hname : ∀ (n : String) (r : Option TagRect), (iconOf h n r).Name = n := by
    intro n r; cases r <;> rfl
  have h1 : ∀ (l : List (Option Element)) (acc : List IconCoord),
      l.foldl (fun icons child =>
        match child with
        | none => icons
        | some elem =>
          if elem.CurrentName = "" then icons
          else icons ++ [iconOf h elem.CurrentName elem.CurrentBoundingRectangle]) acc =
      acc ++ ((l.filterMap id).filter (fun e => decide (e.CurrentName ≠ ""))).map
          (fun e => iconOf h e.CurrentName e.CurrentBoundingRectangle) := by
    intro l
    induction l with
    | nil => intro acc; simp
    | cons a t ih =>
      intro acc
      rw [List.foldl_cons, ih]
      cases a with
      | none => simp
      | some e =>
        by_cases hn : e.CurrentName = "" <;> simp [hn]
  have h2 : ∀ (l : List Element) (acc : List IconCoord),
      l.foldl (fun icons child =>
        if child.CurrentName = "" then icons
        else icons ++ [iconOf h child.CurrentName child.CurrentBoundingRectangle]) acc =
      acc ++ (l.filter (fun e => decide (e.CurrentName ≠ ""))).map
          (fun e => iconOf h e.CurrentName e.CurrentBoundingRectangle) := by
    intro l
    induction l with
    | nil => intro acc; simp
    | cons e t ih =>
      intro acc
      rw [List.foldl_cons, ih]
      by_cases hn : e.CurrentName = "" <;> simp [hn]
  have e1 : GetCoord.icons h childrenArray =
      ((childrenArray.filterMap id).filter (fun e => decide (e.CurrentName ≠ ""))).map
        (fun e => iconOf h e.CurrentName e.CurrentBoundingRectangle) := by
    unfold GetCoord.icons
    rw [h1]; simp
  have e2 : getViaTraversal.icons h listViewElem =
      (listViewElem.Child.filter (fun e => decide (e.CurrentName ≠ ""))).map
        (fun e => iconOf h e.CurrentName e.CurrentBoundingRectangle) := by
    unfold getViaTraversal.icons
    rw [h2]; simp
  have hfun : (IconCoord.Name ∘ fun e : Element =>
      iconOf h e.CurrentName e.CurrentBoundingRectangle) = Element.CurrentName :=
    funext fun e => hname _ _
  refine ⟨e1, e2, ?_, ?_, ?_, ?_⟩
  · rw [e1, List.map_map, List.filter_map, hfun]
    rfl
  · rw [e2, List.map_map, List.filter_map, hfun]
    rfl
  · intro c hc
    rw [e1] at hc
    simp only [List.mem_map, List.mem_filter, decide_eq_true_eq] at hc
    obtain ⟨e, ⟨-, hne⟩, rfl⟩ := hc
    rw [hname]; exact hne
  · intro c hc
    rw [e2] at hc
    simp only [List.mem_map, List.mem_filter, decide_eq_true_eq] at hc
    obtain ⟨e, ⟨-, hne⟩, rfl⟩ := hc
    rw [hname]; exact hne

/-- Claim C7 fails as stated: the public desktop is the only candidate directory, holds
`Report.pdf` and no entry `Report`, and `resolveIconPath("Report")` returns `Report.lnk`,
which the directory also holds and whose extension is tried first. -/
theorem C7_lnk_beats_pdf_counterexample :
    desktopDirs lnkAndPdfHost = ["C:\\Users\\Public\\Desktop"] ∧
    lnkAndPdfHost.stat
      (lnkAndPdfHost.join ["C:\\Users\\Public\\Desktop", "Report" ++ ".pdf"]) = true ∧
    lnkAndPdfHost.stat (lnkAndPdfHost.join ["C:\\Users\\Public\\Desktop", "Report"]) = false ∧
    resolveIconPath lnkAndPdfHost "Report" = "C:\\Users\\Public\\Desktop\\Report.lnk" ∧
    resolveIconPath lnkAndPdfHost "Report" ≠
      lnkAndPdfHost.join ["C:\\Users\\Public\\Desktop", "Report" ++ ".pdf"] := by
  decide

/-- Claim C7, amended: when the only candidate directory `D` holds `N.pdf`, no entry named
exactly `N`, and none of `N.lnk`, `N.url`, `N.exe` (the extensions tried before `.pdf`),
the result is `D/N.pdf`, whatever else `D` holds. -/
theorem C7_pdf_found_when_earlier_guesses_absent (h : Host) (D N : String)
    (hpdf : h.stat (h.join [D, N ++ ".pdf"]) = true)
    (hexact : h.stat (h.join [D, N]) = false)
    (hlnk : h.stat (h.join [D, N ++ ".lnk"]) = false)
    (hurl : h.stat (h.join [D, N ++ ".url"]) = false)
    (hexe : h.stat (h.join [D, N ++ ".exe"]) = false) :
    resolveIconPathIn h N [D] = h.join [D, N ++ ".pdf"] := by
  have ht : tryExtensions h D N extensions = some (h.join [D, N ++ ".pdf"]) := by
    refine tryExtensions_first h D N [".lnk", ".url", ".exe"] _ ".pdf" ?_ hpdf
    intro e he
    simp only [List.mem_cons, List.mem_singleton, List.not_mem_nil, or_false] at he
    rcases he with rfl | rfl | rfl
    · exact hlnk
    · exact hurl
    · exact hexe
  simp [resolveIconPathIn, resolveInDir, hexact, ht]

/-- Witness of the amended C7: the directory holds `Report.pdf`, `Report.zip` and
`Budget.xlsx`. -/
theorem C7_pdf_found_when_earlier_guesses_absent_witness :
    resolveIconPathIn pdfAndZipHost "Report" ["D:\\Desk"] = "D:\\Desk\\Report.pdf" :=
  C7_pdf_found_when_earlier_guesses_absent pdfAndZipHost "D:\\Desk" "Report"
    (by decide) (by decide) (by decide) (by decide) (by decide)

/-- Claim C8: when no directory of `pre` yields a hit for `name` and `d` does, the result
is a path of `d` (exact entry, guessed extension or glob match) and is the same whatever
directories follow `d`: they are not consulted. -/
theorem C8_first_hitting_directory_wins (h : Host) (name : String) (pre : List String)
    (d : String) (hpre : ∀ d' ∈ pre, ¬ Hit h d' name) (hd : Hit h d name) :
    ∃ p, Candidate h d name p ∧
      ∀ post, resolveIconPathIn h name (pre ++ d :: post) = p := by
  have hsome : resolveInDir h d name ≠ none := fun hn =>
    (resolveInDir_none_iff_not_hit h d name).1 hn hd
  obtain ⟨p, hp⟩ := Option.ne_none_iff_exists'.1 hsome
  refine ⟨p, (resolveInDir_some h d name p hp).1, ?_⟩
  intro post
  rw [resolveIconPathIn_skip h name pre (d :: post)
    (fun d' hd' => (resolveInDir_none_iff_not_hit h d' name).2 (hpre d' hd'))]
  simp [resolveIconPathIn, hp]

/-- Witness of C8: the user desktop has nothing for `Report`, the OneDrive desktop holds
`Report.pdf`, the public desktop an exact entry `Report`; the result is the OneDrive
`Report.pdf`, whatever directories follow. -/
theorem C8_first_hitting_directory_wins_witness :
    desktopDirs threeDesktopsHost =
      ["C:\\Users\\u\\Desktop"] ++
        "C:\\Users\\u\\OneDrive\\Desktop" :: ["C:\\Users\\Public\\Desktop"] ∧
    Hit threeDesktopsHost "C:\\Users\\Public\\Desktop" "Report" ∧
    resolveIconPath threeDesktopsHost "Report" =
      "C:\\Users\\u\\OneDrive\\Desktop\\Report.pdf" ∧
    ∃ p, Candidate threeDesktopsHost "C:\\Users\\u\\OneDrive\\Desktop" "Report" p ∧
      ∀ post, resolveIconPathIn threeDesktopsHost "Report"
        (["C:\\Users\\u\\Desktop"] ++ "C:\\Users\\u\\OneDrive\\Desktop" :: post) = p :=
  ⟨by decide, by decide, by decide,
    C8_first_hitting_directory_wins threeDesktopsHost "Report" ["C:\\Users\\u\\Desktop"]
      "C:\\Users\\u\\OneDrive\\Desktop" (by decide) (by decide)⟩

/-- Claim C10: `resolveIconPath(name)` is the empty string exactly when no candidate
directory yields a match: in each one the exact entry is absent, none of the ten guessed
files exists and the glob has no match. The host never reports the empty path as existing
nor as a glob match. -/
theorem C10_empty_iff_no_directory_matches (h : Host) (h0 : h.stat "" = false)
    (hg : ∀ pat, "" ∉ h.glob pat) (name : String) :
    resolveIconPath h name = "" ↔
      ∀ dir ∈ desktopDirs h,
        h.stat (h.join [dir, name]) = false ∧
        (∀ ext ∈ extensions, h.stat (h.join [dir, name ++ ext]) = false) ∧
        h.glob (h.join [dir, name ++ ".*"]) = [] := by
  unfold resolveIconPath
  rw [resolveIconPathIn_empty_iff h h0 hg]
  constructor
  · intro hall dir hdir
    exact (resolveInDir_none h dir name).1 (hall dir hdir)
  · intro hall dir hdir
    exact (resolveInDir_none h dir name).2 (hall dir hdir)

/-- Witness of C10: nothing named `Recycle Bin` is on any of the three desktops of
`threeDesktopsHost`, and the result is the empty string. -/
theorem C10_empty_iff_no_directory_matches_witness :
    resolveIconPath threeDesktopsHost "Recycle Bin" = "" :=
  (C10_empty_iff_no_directory_matches threeDesktopsHost (by decide)
    (by intro pat; simp only [threeDesktopsHost]; split_ifs <;> simp) "Recycle Bin").2
    (by decide)

/-- Claim C12: an element with a non-empty name contributes, at its place in the output
of either loop, one record whose Name is the element's name, whose Path is
`resolveIconPath(name)`, and whose (X, Y, Width, Height) is
(left, top, right - left, bottom - top) of the reported rectangle, the differences taken
in `int32`, or (0, 0, 0, 0) when no rectangle is reported. -/
theorem C12_record_of_named_element (h : Host) (e : Element) (hne : e.CurrentName ≠ "") :
    ∃ c : IconCoord,
      (∀ pre post : List (Option Element),
        GetCoord.icons h (pre ++ some e :: post) =
          GetCoord.icons h pre ++ c :: GetCoord.icons h post) ∧
      (∀ (n cl : String) (r : Option TagRect) (pre post : List Element),
        getViaTraversal.icons h ⟨n, cl, r, pre ++ e :: post⟩ =
          getViaTraversal.icons h ⟨n, cl, r, pre⟩ ++
            c :: getViaTraversal.icons h ⟨n, cl, r, post⟩) ∧
      c.Name = e.CurrentName ∧
      c.Path = resolveIconPath h e.CurrentName ∧
      (∀ r, e.CurrentBoundingRectangle = some r →
        c.X = r.Left ∧ c.Y = r.Top ∧ c.Width = wrapInt32 (r.Right - r.Left) ∧
          c.Height = wrapInt32 (r.Bottom - r.Top)) ∧
      (e.CurrentBoundingRectangle = none →
        c.X = 0 ∧ c.Y = 0 ∧ c.Width = 0 ∧ c.Height = 0) := by
  refine ⟨iconOf h e.CurrentName e.CurrentBoundingRectangle, ?_, ?_, ?_, ?_, ?_, ?_⟩
  · intro pre post
    have hone : GetCoord.icons h [some e] =
        [iconOf h e.CurrentName e.CurrentBoundingRectangle] := by
      simp [GetCoord_icons_eq, hne]
    have hsplit : pre ++ some e :: post = pre ++ ([some e] ++ post) := by simp
    rw [hsplit, GetCoord_icons_append, GetCoord_icons_append, hone]
    rfl
  · intro n cl r pre post
    have hone : getViaTraversal.icons h ⟨n, cl, r, [e]⟩ =
        [iconOf h e.CurrentName e.CurrentBoundingRectangle] := by
      simp [getViaTraversal_icons_eq, hne]
    have hsplit : pre ++ e :: post = pre ++ ([e] ++ post) := by simp
    rw [hsplit, getViaTraversal_icons_append, getViaTraversal_icons_append, hone]
    rfl
  · cases e.CurrentBoundingRectangle <;> rfl
  · cases e.CurrentBoundingRectangle <;> rfl
  · intro r hr
    rw [hr]
    exact ⟨rfl, rfl, rfl, rfl⟩
  · intro hr
    rw [hr]
    exact ⟨rfl, rfl, rfl, rfl⟩

/-- Witness of C12: the element `Report` with the rectangle (100, 200, 164, 280), on the
machine whose OneDrive desktop holds `Report.pdf`, between an unnamed entry and a failed
one. -/
theorem C12_record_of_named_element_witness :
    GetCoord.icons threeDesktopsHost
        [some { CurrentName := "", CurrentClassName := "", CurrentBoundingRectangle := none,
                Child := [] }, some reportElem, none] =
      [{ Name := "Report", Path := "C:\\Users\\u\\OneDrive\\Desktop\\Report.pdf",
         X := 100, Y := 200, Width := 64, Height := 80 }] ∧
    ∃ c : IconCoord, c.Name = "Report" ∧
      c.Path = resolveIconPath threeDesktopsHost "Report" ∧
      ∀ pre post : List (Option Element),
        GetCoord.icons threeDesktopsHost (pre ++ some reportElem :: post) =
          GetCoord.icons threeDesktopsHost pre ++ c :: GetCoord.icons threeDesktopsHost post :=
  ⟨by decide,
    (C12_record_of_named_element threeDesktopsHost reportElem (by decide)).elim
      fun c hc => ⟨c, hc.2.2.1, hc.2.2.2.1, hc.1⟩⟩

/-- Claim C13 fails as stated: with `before` larger than `after` (8 x 1 against 1 x 5)
the call returns (0,0)-(1,5), reporting a change at the sample (0,4) of `after` from a
byte that belongs to pixel (4,0) of `before`; with `before` smaller than `after`
(1 x 1 against 2 x 1) it returns `ZR`. Neither call fails. -/
theorem C13_no_fail_fast_counterexample :
    row8.WellFormed ∧ col5.WellFormed ∧ row8.Rect.Dx ≠ col5.Rect.Dx ∧
    row8.Rect.Dy ≠ col5.Rect.Dy ∧
    GetDiffBounds row8 col5 = some ⟨⟨0, 0⟩, ⟨1, 5⟩⟩ ∧
    dot1.WellFormed ∧ pair2.WellFormed ∧ dot1.Rect.Dx < pair2.Rect.Dx ∧
    GetDiffBounds dot1 pair2 = some ZR := by
  decide

/-- Claim C13, amended: `GetDiffBounds` makes no check of dimensions and never reads the
bounds or the stride of `before`: it compares `after` with `before.Pix` read at the
offsets of `after`. For a well-formed `after` with `Max.X` and `Max.Y` at most 2^63 - 4
(no increment of the loops wraps) it returns a rectangle when `before.Pix`, a slice and
so shorter than 2^63, is long enough for every pixel of `after`, and panics when the
first byte of some sample of `after` lies beyond the end of `before.Pix`. -/
theorem C13_dimensions_are_not_checked (before after : RGBA) :
    GetDiffBounds before after =
      GetDiffBounds { Pix := before.Pix, Stride := after.Stride, Rect := after.Rect } after ∧
    (after.WellFormed → after.Rect.LoopsFit →
      before.Pix.length < 9223372036854775808 →
      (after.Rect.Dy - 1) * after.Stride + 4 * after.Rect.Dx ≤ before.Pix.length →
      ∃ r, GetDiffBounds before after = some r) ∧
    (after.WellFormed → after.Rect.LoopsFit →
      (∃ x y, Sampled after.Rect x y ∧ (before.Pix.length : Int) ≤ after.PixOffset x y) →
      GetDiffBounds before after = none) := by
  refine ⟨rfl, ?_, ?_⟩
  · intro hw hfit hshort hlen
    rw [GetDiffBounds_ignores_before_layout]
    refine GetDiffBounds_some_of_layout _ after ⟨rfl, rfl, ⟨hshort, ?_⟩, hw⟩ hfit
    rcases hw.2 with he | ⟨h1, _⟩
    · exact Or.inl he
    · exact Or.inr ⟨h1, hlen⟩
  · rintro hw hfit ⟨x, y, hs, hshort⟩
    exact GetDiffBounds_none_of_short before after hw hfit x y hs hshort

/-- Witness of the amended C13: `row8` is long enough for `col5`, so the call returns a
rectangle; `dot1` (4 bytes) is too short for the sample (4,0) of `strip5`, at offset 16,
so the call panics. -/
theorem C13_dimensions_are_not_checked_witness :
    (∃ r, GetDiffBounds row8 col5 = some r) ∧ GetDiffBounds dot1 strip5 = none :=
  ⟨(C13_dimensions_are_not_checked row8 col5).2.1 (by decide) (by decide) (by decide)
      (by decide),
    (C13_dimensions_are_not_checked dot1 strip5).2.2 (by decide) (by decide)
      ⟨4, 0, by decide, by decide⟩⟩

/-- Claim C14 fails as stated. The buffers `tall5Padded` and `tall5` have the same
bounds and hold the same picture, at strides 8 and 4, so no pixel differs; the call reads
`before.Pix` at the offsets of `after`, finds a difference at the sample (0, 4) and
returns (0,0)-(1,5), and with the arguments exchanged it reads `Pix[32]` of 20 bytes and
returns nothing. And `edge2`, which agrees with itself everywhere, gives no rectangle,
its column increment wrapping. -/
theorem C14_other_stride_counterexample :
    tall5Padded.Rect = tall5.Rect ∧ tall5Padded.WellFormed ∧ tall5.WellFormed ∧
    tall5.Rect.LoopsFit ∧
    (∀ x y, tall5.Rect.Contains x y → ¬ RGBDiffAt tall5Padded tall5 x y) ∧
    (∀ x y, Sampled tall5.Rect x y → ¬ RGBDiffAt tall5Padded tall5 x y) ∧
    GetDiffBounds tall5Padded tall5 = some ⟨⟨0, 0⟩, ⟨1, 5⟩⟩ ∧
    GetDiffBounds tall5 tall5Padded = none ∧
    SameLayout edge2 edge2 ∧ GetDiffBounds edge2 edge2 = none := by
  have hall : ∀ y ∈ [(0 : Int), 1, 2, 3, 4], ¬ RGBDiffAt tall5Padded tall5 0 y := by decide
  have hin : ∀ x y, tall5.Rect.Contains x y → ¬ RGBDiffAt tall5Padded tall5 x y := by
    rintro x y ⟨h1, h2, h3, h4⟩
    have hx : x = 0 := by
      have e1 : tall5.Rect.Min.X = 0 := rfl
      have e2 : tall5.Rect.Max.X = 1 := rfl
      omega
    have hy : y ∈ [(0 : Int), 1, 2, 3, 4] := by
      have e1 : tall5.Rect.Min.Y = 0 := rfl
      have e2 : tall5.Rect.Max.Y = 5 := rfl
      simp only [List.mem_cons, List.mem_singleton, List.not_mem_nil, or_false]
      omega
    subst hx
    exact hall y hy
  refine ⟨rfl, by decide, by decide, by decide, hin, ?_, by decide, by decide, by decide,
    by decide⟩
  rintro x y ⟨⟨h1, h2, -⟩, ⟨h3, h4, -⟩⟩
  exact hin x y ⟨h1, h2, h3, h4⟩

/-- Claim C14, amended: for bounds with `Max.X` and `Max.Y` at most 2^63 - 4, buffers of
the same bounds and the same stride, each holding all its pixels, that agree in R, G and
B at every sampled coordinate give `image.ZR`, whatever their alpha bytes and unsampled
pixels hold; and a buffer `after` with empty bounds (zero width or height) gives
`image.ZR` against any `before`. -/
theorem C14_no_sampled_difference_yields_ZR (before after : RGBA)
    (hfit : after.Rect.LoopsFit) :
    (SameLayout before after →
      (∀ x y, Sampled after.Rect x y → ¬ RGBDiffAt before after x y) →
      GetDiffBounds before after = some ZR) ∧
    (after.Rect.Empty = true → GetDiffBounds before after = some ZR) := by
  constructor
  · intro h hagree
    apply GetDiffBounds_unchanged before after h hfit
    rintro ⟨x, y, hs, hd⟩
    exact hagree x y hs hd
  · exact GetDiffBounds_of_empty before after hfit

/-- Witness of the amended C14: `strip5Touched` differs from `strip5` in the alpha byte of
the sampled pixel (0,0) and in the unsampled pixel (1,0) only, and the result is `ZR`. -/
theorem C14_no_sampled_difference_yields_ZR_witness :
    strip5.Pix ≠ strip5Touched.Pix ∧ strip5Touched.Rect.LoopsFit ∧
    GetDiffBounds strip5 strip5Touched = some ZR :=
  ⟨by decide, by decide,
    (C14_no_sampled_difference_yields_ZR strip5 strip5Touched (by decide)).1 (by decide)
      (fun x y hs =>
        (by decide : ∀ p ∈ samplePoints strip5Touched.Rect,
          ¬ RGBDiffAt strip5 strip5Touched p.1 p.2) (x, y) ((mem_samplePoints _ _).2 hs))⟩

/-- Claim C15: in the traversal fallback the element whose children become the icons is
the first element, in search order, with class `SysListView32` and name `FolderView`,
whatever precedes it; when no element has both, it is the first element with class
`SysListView32`; when no element has that class, the call ends in `log.Fatal` and returns
nothing. -/
theorem C15_folder_view_first_then_class_only (h : Host) (visit : Element → List Element)
    (tree : Element) :
    (∀ (pre post : List Element) (e : Element), visit tree = pre ++ e :: post →
      e.CurrentClassName = "SysListView32" ∧ e.CurrentName = "FolderView" →
      (∀ x ∈ pre, ¬ (x.CurrentClassName = "SysListView32" ∧ x.CurrentName = "FolderView")) →
      getViaTraversal h visit tree = some (getViaTraversal.icons h e)) ∧
    (∀ (pre post : List Element) (e : Element), visit tree = pre ++ e :: post →
      (∀ x ∈ visit tree,
        ¬ (x.CurrentClassName = "SysListView32" ∧ x.CurrentName = "FolderView")) →
      e.CurrentClassName = "SysListView32" →
      (∀ x ∈ pre, x.CurrentClassName ≠ "SysListView32") →
      getViaTraversal h visit tree = some (getViaTraversal.icons h e)) ∧
    ((∀ x ∈ visit tree, x.CurrentClassName ≠ "SysListView32") →
      getViaTraversal h visit tree = none) := by
  refine ⟨?_, ?_, ?_⟩
  · intro pre post e hsplit he hpre
    have hfind : (visit tree).find? (fun e =>
        decide (e.CurrentClassName = "SysListView32" ∧ e.CurrentName = "FolderView"))
        = some e := by
      rw [hsplit]
      exact find?_of_split _ pre post e (fun x hx => by simpa using hpre x hx) (by simpa using he)
    simp only [getViaTraversal, SearchElem, hfind]
  · intro pre post e hsplit hnone he hpre
    have hfirst : (visit tree).find? (fun e =>
        decide (e.CurrentClassName = "SysListView32" ∧ e.CurrentName = "FolderView"))
        = none :=
      find?_none_of_all _ _ (fun x hx => by simpa using hnone x hx)
    have hsecond : (visit tree).find? (fun e =>
        decide (e.CurrentClassName = "SysListView32")) = some e := by
      rw [hsplit]
      exact find?_of_split _ pre post e (fun x hx => by simpa using hpre x hx) (by simpa using he)
    simp only [getViaTraversal, SearchElem, hfirst, hsecond]
  · intro hnone
    have hfirst : (visit tree).find? (fun e =>
        decide (e.CurrentClassName = "SysListView32" ∧ e.CurrentName = "FolderView"))
        = none :=
      find?_none_of_all _ _ (fun x hx => by
        have := hnone x hx
        simp [this])
    have hsecond : (visit tree).find? (fun e =>
        decide (e.CurrentClassName = "SysListView32")) = none :=
      find?_none_of_all _ _ (fun x hx => by simpa using hnone x hx)
    simp only [getViaTraversal, SearchElem, hfirst, hsecond]

/-- Witness of C15 on `desktopTree`, walked parent first: the list view `Other` comes
before `FolderView`, and the icons are those of `FolderView`, the record of `Report`. -/
theorem C15_folder_view_first_then_class_only_witness :
    (preorder desktopTree).map Element.CurrentName =
      ["Desktop", "Other", "Trash", "Program Manager", "FolderView", "Report"] ∧
    getViaTraversal lnkAndPdfHost preorder desktopTree =
      some [{ Name := "Report", Path := "C:\\Users\\Public\\Desktop\\Report.lnk",
              X := 100, Y := 200, Width := 64, Height := 80 }] ∧
    getViaTraversal lnkAndPdfHost preorder desktopTree =
      some (getViaTraversal.icons lnkAndPdfHost
        { CurrentName := "FolderView", CurrentClassName := "SysListView32",
          CurrentBoundingRectangle := none, Child := [reportElem] }) :=
  ⟨by decide, by decide,
    (C15_folder_view_first_then_class_only lnkAndPdfHost preorder desktopTree).1
      [desktopTree,
        { CurrentName := "Other", CurrentClassName := "SysListView32",
          CurrentBoundingRectangle := none, Child := [flippedElem] },
        flippedElem,
        { CurrentName := "Program Manager", CurrentClassName := "Progman",
          CurrentBoundingRectangle := none,
          Child := [{ CurrentName := "FolderView", CurrentClassName := "SysListView32",
                      CurrentBoundingRectangle := none, Child := [reportElem] }] }]
      [reportElem]
      { CurrentName := "FolderView", CurrentClassName := "SysListView32",
        CurrentBoundingRectangle := none, Child := [reportElem] }
      rfl (by decide) (by decide)⟩

/-- Claim C16 fails as stated. On `lowest1` and `lowest1Lit`, whose left edge is the least
`int`, the sample (-2^63, 0) differs, `minX - 20` wraps to 2^63 - 20, `image.Rect` swaps
the two columns, the intersection with the bounds is empty and the call returns `ZR`. On
`high1` and `high1Lit` it is `maxX + 20` that wraps, with the same result. On `tall5Padded`
and `tall5`, of the same bounds but strides 8 and 4, no sampled pixel differs and the
call returns the non-empty rectangle (0,0)-(1,5). -/
theorem C16_padding_wraps_counterexample :
    (SameLayout lowest1 lowest1Lit ∧
      Sampled lowest1Lit.Rect (-9223372036854775808) 0 ∧
      RGBDiffAt lowest1 lowest1Lit (-9223372036854775808) 0 ∧
      wrap64 (-9223372036854775808 - 20) = 9223372036854775788 ∧
      GetDiffBounds lowest1 lowest1Lit = some ZR) ∧
    (SameLayout high1 high1Lit ∧ high1Lit.Rect.LoopsFit ∧
      Sampled high1Lit.Rect 9223372036854775803 0 ∧
      RGBDiffAt high1 high1Lit 9223372036854775803 0 ∧
      wrap64 (9223372036854775803 + 20) = -9223372036854775793 ∧
      GetDiffBounds high1 high1Lit = some ZR) ∧
    (tall5Padded.Rect = tall5.Rect ∧ tall5Padded.WellFormed ∧ tall5.WellFormed ∧
      tall5.Rect.AwayFromLimits ∧
      (∀ p ∈ samplePoints tall5.Rect, ¬ RGBDiffAt tall5Padded tall5 p.1 p.2) ∧
      GetDiffBounds tall5Padded tall5 = some ⟨⟨0, 0⟩, ⟨1, 5⟩⟩ ∧
      (⟨⟨0, 0⟩, ⟨1, 5⟩⟩ : Rectangle).Empty = false) := by
  decide

/-- Claim C16, amended: for buffers of the same bounds and the same stride, each holding
all its pixels, with bounds at least 20 inside the limits of `int` (`Min.X`, `Min.Y` at
least -2^63 + 20 and `Max.X`, `Max.Y` at most 2^63 - 21), the call returns a rectangle
that is non-empty exactly when some sampled pixel differs in R, G or B, and every sampled
differing coordinate lies inside it. -/
theorem C16_detected_changes_are_inside (before after : RGBA) (h : SameLayout before after)
    (hfar : after.Rect.AwayFromLimits) :
    ∃ r, GetDiffBounds before after = some r ∧
      (r.Empty = false ↔ ∃ x y, Sampled after.Rect x y ∧ RGBDiffAt before after x y) ∧
      (∀ x y, Sampled after.Rect x y → RGBDiffAt before after x y →
        r.Min.X ≤ x ∧ x < r.Max.X ∧ r.Min.Y ≤ y ∧ y < r.Max.Y) :=
  GetDiffBounds_contains before after h hfar

/-- Witness of the amended C16 on the buffer left of the origin: the sample (-24, -1)
differs and lies inside the returned rectangle (-24,-1)-(0,0). -/
theorem C16_detected_changes_are_inside_witness :
    RGBDiffAt left24 left24Lit (-24) (-1) ∧
    ∃ r, GetDiffBounds left24 left24Lit = some r ∧
      (r.Empty = false ↔ ∃ x y, Sampled left24Lit.Rect x y ∧ RGBDiffAt left24 left24Lit x y) ∧
      (∀ x y, Sampled left24Lit.Rect x y → RGBDiffAt left24 left24Lit x y →
        r.Min.X ≤ x ∧ x < r.Max.X ∧ r.Min.Y ≤ y ∧ y < r.Max.Y) :=
  ⟨by decide, C16_detected_changes_are_inside left24 left24Lit (by decide) (by decide)⟩

/-- Claim C17: for buffers with the same bounds, stride and pixel-array length the result
does not depend on the order of the arguments; and when the two are well formed, with
`Max.X` and `Max.Y` at most 2^63 - 4, that result is a rectangle, not a panic. -/
theorem C17_argument_order_is_irrelevant (a b : RGBA) (hr : a.Rect = b.Rect)
    (hs : a.Stride = b.Stride) (hl : a.Pix.length = b.Pix.length) :
    GetDiffBounds a b = GetDiffBounds b a ∧
    (a.WellFormed → b.Rect.LoopsFit →
      ∃ r, GetDiffBounds a b = some r ∧ GetDiffBounds b a = some r) := by
  have hcomm := GetDiffBounds_comm a b hr hs hl
  refine ⟨hcomm, fun hw hfit => ?_⟩
  have hwb : b.WellFormed := by
    refine ⟨hl ▸ hw.1, ?_⟩
    rcases hw.2 with he | ⟨h1, h2⟩
    · exact Or.inl (hr ▸ he)
    · exact Or.inr ⟨by rw [← hr, ← hs]; exact h1, by rw [← hr, ← hs, ← hl]; exact h2⟩
  obtain ⟨r, hres⟩ := GetDiffBounds_some_of_layout a b ⟨hr, hs, hw, hwb⟩ hfit
  exact ⟨r, hres, hcomm ▸ hres⟩

/-- Witness of C17 on `dark6x2` and `dark6x2Lit`: both orders give (-2,5)-(4,7). -/
theorem C17_argument_order_is_irrelevant_witness :
    GetDiffBounds dark6x2 dark6x2Lit = some ⟨⟨-2, 5⟩, ⟨4, 7⟩⟩ ∧
    GetDiffBounds dark6x2 dark6x2Lit = GetDiffBounds dark6x2Lit dark6x2 :=
  ⟨by decide, (C17_argument_order_is_irrelevant dark6x2 dark6x2Lit rfl rfl (by decide)).1⟩

/-- Claim C18 fails as stated. The buffer `edge2` (bounds (2^63 - 3, 0)-(2^63 - 1, 1),
stride 8 = 4 x 2, 8 = 8 x 1 bytes) meets the precondition against itself, and the call
returns nothing: `x += 4` wraps to -2^63 + 1, still below `Max.X`, and the read at offset
16 is out of range. The same happens to `bottom1` when `y += 4` wraps. -/
theorem C18_wrapping_loop_counterexample :
    (4 * edge2.Rect.Dx ≤ edge2.Stride ∧ edge2.Stride * edge2.Rect.Dy ≤ edge2.Pix.length ∧
      scanPixel edge2 edge2 0 (scanInit edge2) (wrap64 (edge2.Rect.Min.X + 4)) = none ∧
      GetDiffBounds edge2 edge2 = none) ∧
    (4 * bottom1.Rect.Dx ≤ bottom1.Stride ∧
      bottom1.Stride * bottom1.Rect.Dy ≤ bottom1.Pix.length ∧
      wrap64 (bottom1.Rect.Min.Y + 4) = -9223372036854775806 ∧
      bottom1.PixOffset 0 (-9223372036854775806) = 16 ∧
      scanPixel bottom1 bottom1 (-9223372036854775806) (scanInit bottom1) 0 = none ∧
      GetDiffBounds bottom1 bottom1 = none) := by
  decide

/-- Claim C18, amended: when the two buffers have the same bounds and stride, with `Max.X`
and `Max.Y` at most 2^63 - 4 so that no increment of the loops wraps, and for each the
stride is at least 4 x width and the pixel array, shorter than 2^63 as every slice, at
least stride x height long, the offsets `off`, `off+1`, `off+2` of every sampled
coordinate are valid indices of both pixel arrays, and the call returns a rectangle. -/
theorem C18_reads_in_range_no_panic (before after : RGBA) (hr : before.Rect = after.Rect)
    (hs : before.Stride = after.Stride) (hfit : after.Rect.LoopsFit)
    (hla : after.Pix.length < 9223372036854775808)
    (hlb : before.Pix.length < 9223372036854775808)
    (ha1 : 4 * after.Rect.Dx ≤ after.Stride)
    (ha2 : after.Stride * after.Rect.Dy ≤ after.Pix.length)
    (hb1 : 4 * before.Rect.Dx ≤ before.Stride)
    (hb2 : before.Stride * before.Rect.Dy ≤ before.Pix.length) :
    (∀ x y, Sampled after.Rect x y →
      0 ≤ after.PixOffset x y ∧ after.PixOffset x y + 2 < after.Pix.length ∧
        after.PixOffset x y + 2 < before.Pix.length) ∧
    ∃ r, GetDiffBounds before after = some r := by
  have hwa := wellFormed_of_stride_length after hla ha1 ha2
  have hwb := wellFormed_of_stride_length before hlb hb1 hb2
  constructor
  · intro x y hsam
    obtain ⟨⟨hx1, hx2, -⟩, ⟨hy1, hy2, -⟩⟩ := hsam
    have h1 := offset_in_range after hwa x y ⟨hx1, hx2⟩ ⟨hy1, hy2⟩
    have h2 := offset_in_range before hwb x y (hr ▸ ⟨hx1, hx2⟩) (hr ▸ ⟨hy1, hy2⟩)
    have hoff : before.PixOffset x y = after.PixOffset x y := by
      simp [RGBA.PixOffset, hr, hs]
    rw [hoff] at h2
    omega
  · exact GetDiffBounds_some_of_layout before after ⟨hr, hs, hwb, hwa⟩ hfit

/-- Witness of the amended C18 on `dark6x2` and `dark6x2Lit`: stride 24 = 4 x 6,
48 = 24 x 2 bytes. -/
theorem C18_reads_in_range_no_panic_witness :
    dark6x2Lit.Rect.LoopsFit ∧ ∃ r, GetDiffBounds dark6x2 dark6x2Lit = some r :=
  ⟨by decide,
    (C18_reads_in_range_no_panic dark6x2 dark6x2Lit rfl rfl (by decide) (by decide)
      (by decide) (by decide) (by decide) (by decide) (by decide)).2⟩

/-- Claim C19: a non-empty result of `resolveIconPath(name)` passed `os.Stat` or was
returned by the glob, and it is `dir/name`, `dir/name+ext` for a listed extension, or a
match of `dir/name.*`, for a candidate directory `dir`. For the empty name the result is
the first candidate directory that exists, given that joining a directory with the empty
name gives the directory and that nothing is found under a directory that does not
exist. -/
theorem C19_result_exists_and_names_a_candidate (h : Host) :
    (∀ name, resolveIconPath h name ≠ "" →
      ∃ dir ∈ desktopDirs h,
        Candidate h dir name (resolveIconPath h name) ∧
        (h.stat (resolveIconPath h name) = true ∨
          resolveIconPath h name ∈ h.glob (h.join [dir, name ++ ".*"]))) ∧
    (∀ (pre post : List String) (d : String), desktopDirs h = pre ++ d :: post →
      h.join [d, ""] = d → h.stat d = true →
      (∀ d' ∈ pre, h.join [d', ""] = d' ∧ h.stat d' = false ∧
        (∀ ext ∈ extensions, h.stat (h.join [d', "" ++ ext]) = false) ∧
        h.glob (h.join [d', "" ++ ".*"]) = []) →
      resolveIconPath h "" = d) := by
  constructor
  · intro name hne
    obtain ⟨dir, hmem, hdir⟩ := resolveIconPathIn_ne_empty h name (desktopDirs h) hne
    exact ⟨dir, hmem, resolveInDir_some h dir name _ hdir⟩
  · intro pre post d hsplit hjoin hstat hpre
    unfold resolveIconPath
    rw [hsplit, resolveIconPathIn_skip h "" pre (d :: post)]
    · simp [resolveIconPathIn, resolveInDir, hjoin, hstat]
    · intro d' hd'
      obtain ⟨h1, h2, h3, h4⟩ := hpre d' hd'
      exact (resolveInDir_none h d' "").2 ⟨by rw [h1]; exact h2, h3, h4⟩

/-- Witness of C19 on the machine with the redirected desktop: `Report` resolves to the
`Report.pdf` of the OneDrive desktop, which exists, and the empty name resolves to the
OneDrive desktop itself, the first candidate directory that exists. -/
theorem C19_result_exists_and_names_a_candidate_witness :
    desktopDirs redirectedDesktopHost =
      ["C:\\Users\\u\\Desktop", "C:\\Users\\u\\OneDrive\\Desktop",
        "C:\\Users\\Public\\Desktop"] ∧
    resolveIconPath redirectedDesktopHost "Report" =
      "C:\\Users\\u\\OneDrive\\Desktop\\Report.pdf" ∧
    redirectedDesktopHost.stat (resolveIconPath redirectedDesktopHost "Report") = true ∧
    resolveIconPath redirectedDesktopHost "" = "C:\\Users\\u\\OneDrive\\Desktop" :=
  ⟨by decide, by decide, by decide,
    (C19_result_exists_and_names_a_candidate redirectedDesktopHost).2
      ["C:\\Users\\u\\Desktop"] ["C:\\Users\\Public\\Desktop"]
      "C:\\Users\\u\\OneDrive\\Desktop" (by decide) (by decide) (by decide) (by decide)⟩

end Wisor
